import Mathlib

/-!
Shallow embedding of the Food Waste Tracking & Donation web application.

The application connects food donors with NGOs: donors list surplus food
donations, NGOs browse and claim them, and both sides track a claim
lifecycle.  The embedding models the two mutable entities that the
verified claims are about (`food_donations` and `claims` tables) as
association lists keyed by numeric identifiers, and each route handler
as a pure function from an application state (plus its request
parameters and the current date) to a new state together with an
observable outcome (redirects, flash messages, form-validation
failures).  The registration and login flows are modelled separately
over a list of user rows.
-/

namespace FoodWaste

/-- Donation status enumeration (the `donation_status` column of
`food_donations` in `app/models/food_donation.py`). -/
inductive DonationStatus
  | available
  | claimed
  | completed
  | expired
deriving DecidableEq, Repr

/-- Claim status enumeration (the `claim_status` column of `claims` in
`app/models/claim.py`). -/
inductive ClaimStatus
  | claimed
  | scheduled
  | picked_up
  | completed
  | cancelled
deriving DecidableEq, Repr

/-- A row of the `food_donations` table (`FoodDonation` model).  Dates and
timestamps are modelled as integers (days for `expiry_date`, an abstract
tick for `created_at`). -/
structure FoodDonation where
  donor_id : Nat
  category_id : Nat
  title : String
  description : Option String
  quantity : Int
  unit : String
  expiry_date : Int
  pickup_address : String
  pickup_city : String
  pickup_instructions : Option String
  status : DonationStatus
  is_perishable : Bool
  dietary_info : Option String
  created_at : Int
deriving DecidableEq, Repr

/-- A row of the `claims` table (`Claim` model). -/
structure Claim where
  donation_id : Nat
  ngo_id : Nat
  status : ClaimStatus
  notes : Option String
  completed_at : Option Int
deriving DecidableEq, Repr

/-- The mutable database state the claim lifecycle operates on: the
`food_donations` and `claims` tables, as association lists from primary
key to row. -/
structure AppState where
  donations : List (Nat × FoodDonation)
  claims : List (Nat × Claim)
deriving DecidableEq, Repr

/-- Look up a row by primary key (first match). -/
def findEntry (l : List (Nat × α)) (k : Nat) : Option α :=
  (l.find? (fun p => p.1 == k)).map Prod.snd

/-- Update the row with the given primary key in place (identity on the
rest of the table). -/
def updEntry (l : List (Nat × α)) (k : Nat) (f : α → α) : List (Nat × α) :=
  l.map (fun p => if p.1 = k then (p.1, f p.2) else p)

/-- The `donation.claim` relationship: the claim row referencing the given
donation, if any (the `donation_id` column carries a uniqueness
constraint, so at most one row matches in any database-consistent
state). -/
def claimOf (s : AppState) (did : Nat) : Option (Nat × Claim) :=
  s.claims.find? (fun p => p.2.donation_id == did)

/-- Python `str.strip()`: remove leading and trailing whitespace. -/
def strip (x : String) : String :=
  String.mk (((x.data.dropWhile Char.isWhitespace).reverse.dropWhile
    Char.isWhitespace).reverse)

/-- `FoodDonation.is_expired`: the expiry date is strictly before today. -/
def FoodDonation.is_expired (d : FoodDonation) (today : Int) : Bool :=
  d.expiry_date < today

/-- `FoodDonation.can_be_claimed`: available and not expired. -/
def FoodDonation.can_be_claimed (d : FoodDonation) (today : Int) : Bool :=
  d.status == DonationStatus.available && !(d.is_expired today)

/-- `FoodDonation.can_be_edited`: status is available. -/
def FoodDonation.can_be_edited (d : FoodDonation) : Bool :=
  d.status == DonationStatus.available

/-- `FoodDonation.update_status_if_expired`: flip an `available` donation
whose expiry date has passed to `expired`; otherwise leave it alone. -/
def FoodDonation.update_status_if_expired (d : FoodDonation) (today : Int) :
    FoodDonation :=
  if d.is_expired today && d.status == DonationStatus.available then
    { d with status := DonationStatus.expired }
  else d

/-- `Claim.can_be_cancelled`: status is claimed or scheduled. -/
def Claim.can_be_cancelled (c : Claim) : Bool :=
  c.status == ClaimStatus.claimed || c.status == ClaimStatus.scheduled

/-- Text prepended to the notes by `Claim.cancel_claim`. -/
def cancelNoteTag : String := "Cancelled: "

/-- Set a donation's status field. -/
def setDStatus (st : DonationStatus) (d : FoodDonation) : FoodDonation :=
  { d with status := st }

/-- Field updates performed on the claim row by `Claim.mark_as_completed`:
status becomes completed and `completed_at` is stamped. -/
def completeFields (now : Int) (c : Claim) : Claim :=
  { c with status := ClaimStatus.completed, completed_at := some now }

/-- Field updates performed on the claim row by `Claim.cancel_claim`:
status becomes cancelled and, when the reason is non-empty, the notes
are overwritten with "Cancelled: " followed by the reason. -/
def cancelFields (reason : String) (c : Claim) : Claim :=
  { c with status := ClaimStatus.cancelled,
           notes := if reason ≠ "" then some (cancelNoteTag ++ reason)
             else c.notes }

/-- `Claim.mark_as_completed` applied to the claim with key `cid`: set the
claim status to completed, stamp `completed_at`, and set the parent
donation's status to completed (the donation update is a no-op when the
referenced donation row does not exist, mirroring the `if self.donation`
guard). -/
def Claim.mark_as_completed (now : Int) (cid : Nat) (s : AppState) : AppState :=
  match findEntry s.claims cid with
  | none => s
  | some c =>
    { donations := updEntry s.donations c.donation_id
        (setDStatus DonationStatus.completed),
      claims := updEntry s.claims cid (completeFields now) }

/-- `Claim.cancel_claim` applied to the claim with key `cid`: set the claim
status to cancelled, overwrite the notes with "Cancelled: " followed by
the reason when the reason is non-empty, and make the parent donation
available again. -/
def Claim.cancel_claim (reason : String) (cid : Nat) (s : AppState) : AppState :=
  match findEntry s.claims cid with
  | none => s
  | some c =>
    { donations := updEntry s.donations c.donation_id
        (setDStatus DonationStatus.available),
      claims := updEntry s.claims cid (cancelFields reason) }

/-- Flash message of `ngo.claim_donation` when the donation fails
`can_be_claimed`. -/
def msgNoLongerAvailable : String :=
  "This donation is no longer available for claiming."

/-- Flash message of `ngo.claim_donation` when the donation already has an
associated claim row. -/
def msgAlreadyClaimed : String :=
  "This donation has already been claimed by another NGO."

/-- Flash message of `ngo.cancel_claim` when `can_be_cancelled` is false. -/
def msgCannotCancel : String :=
  "This claim cannot be cancelled at its current status."

/-- Flash message of `ngo.cancel_claim` on success. -/
def msgCancelledOk : String := "Claim has been cancelled successfully."

/-- Flash message of `ngo.update_claim` on success. -/
def msgClaimUpdated : String := "Claim status updated successfully!"

/-- Flash message of `ngo.complete_pickup` when the claim is already
completed. -/
def msgAlreadyCompleted : String :=
  "This claim is already marked as completed."

/-- Default cancellation reason of `ngo.cancel_claim` when the request form
carries no `reason` field. -/
def defaultCancelReason : String := "Cancelled by NGO"

/-- Flash message shown when a database commit raises and the transaction
is rolled back. -/
def msgCommitError : String := "An error occurred."

/-- Observable outcome of one route-handler invocation: a 404, an error /
info / success flash message, a failed form validation redisplaying the
form, or a plain page render. -/
inductive Outcome
  | notFound
  | errFlash (m : String)
  | infoFlash (m : String)
  | successFlash (m : String)
  | formInvalid
  | page
deriving DecidableEq, Repr

/-- Maximum length accepted for claim notes (`Length(max=300)` on the
`ClaimForm` and `UpdateClaimForm` notes fields). -/
def notesMax : Nat := 300

/-- Route `ngo.claim_donation`: claim a food donation.  Guards: the
donation must exist (404 otherwise), pass `can_be_claimed`, and have no
associated claim row; then, on a valid form submission, a new claim row
is inserted with status `claimed` and the donation status is set to
`claimed`.  A primary-key collision on the new claim id makes the commit
fail and roll back. -/
def claim_donation (today : Int) (ngo did : Nat) (notes : String)
    (newCid : Nat) (s : AppState) : AppState × Outcome :=
  match findEntry s.donations did with
  | none => (s, Outcome.notFound)
  | some d =>
    if !(d.can_be_claimed today) then
      (s, Outcome.errFlash msgNoLongerAvailable)
    else if (claimOf s did).isSome then
      (s, Outcome.errFlash msgAlreadyClaimed)
    else if notes.length > notesMax then
      (s, Outcome.formInvalid)
    else if (findEntry s.claims newCid).isSome then
      (s, Outcome.errFlash msgCommitError)
    else
      ({ donations := updEntry s.donations did
           (setDStatus DonationStatus.claimed),
         claims := s.claims ++
           [(newCid,
             { donation_id := did, ngo_id := ngo,
               status := ClaimStatus.claimed,
               notes := if notes ≠ "" then some (strip notes) else none,
               completed_at := none })] },
       Outcome.successFlash ("Successfully claimed " ++ d.title))

/-- Field updates performed directly by `ngo.update_claim` on the claim
row: the submitted status is assigned, and the notes are replaced by the
trimmed submitted notes when those are non-empty. -/
def updateClaimFields (newStatus : ClaimStatus) (notes : String)
    (c : Claim) : Claim :=
  { c with status := newStatus,
           notes := if notes ≠ "" then some (strip notes) else c.notes }

/-- Route `ngo.update_claim`: update the status (and optionally the notes)
of a claim owned by the requesting NGO.  The status is assigned
directly; a target of `completed` (from a different prior status)
additionally runs `Claim.mark_as_completed`, and a target of `cancelled`
additionally runs `Claim.cancel_claim` with the submitted notes as the
reason. -/
def update_claim (now : Int) (ngo cid : Nat) (newStatus : ClaimStatus)
    (notes : String) (s : AppState) : AppState × Outcome :=
  match s.claims.find? (fun p => p.1 == cid && p.2.ngo_id == ngo) with
  | none => (s, Outcome.notFound)
  | some pc =>
    if notes.length > notesMax then
      (s, Outcome.formInvalid)
    else
      let old := pc.2.status
      let claims1 := updEntry s.claims cid (updateClaimFields newStatus notes)
      let s1 : AppState := { s with claims := claims1 }
      let s2 :=
        if newStatus = ClaimStatus.completed ∧ old ≠ ClaimStatus.completed then
          Claim.mark_as_completed now cid s1
        else if newStatus = ClaimStatus.cancelled then
          Claim.cancel_claim notes cid s1
        else s1
      (s2, Outcome.successFlash msgClaimUpdated)

/-- Route `ngo.cancel_claim`: directly cancel a claim owned by the
requesting NGO.  Only permitted while `can_be_cancelled`; the reason is
the posted `reason` form field, defaulting to "Cancelled by NGO" when
the field is absent. -/
def cancel_claim (ngo cid : Nat) (reasonParam : Option String)
    (s : AppState) : AppState × Outcome :=
  match s.claims.find? (fun p => p.1 == cid && p.2.ngo_id == ngo) with
  | none => (s, Outcome.notFound)
  | some pc =>
    if !pc.2.can_be_cancelled then
      (s, Outcome.errFlash msgCannotCancel)
    else
      (Claim.cancel_claim (reasonParam.getD defaultCancelReason) cid s,
       Outcome.infoFlash msgCancelledOk)

/-- Route `ngo.complete_pickup`: mark a claim owned by the requesting NGO
as completed; a no-op with an informational message when the claim is
already completed. -/
def complete_pickup (now : Int) (ngo cid : Nat) (s : AppState) :
    AppState × Outcome :=
  match s.claims.find? (fun p => p.1 == cid && p.2.ngo_id == ngo) with
  | none => (s, Outcome.notFound)
  | some pc =>
    if pc.2.status = ClaimStatus.completed then
      (s, Outcome.infoFlash msgAlreadyCompleted)
    else
      (Claim.mark_as_completed now cid s,
       Outcome.successFlash "Successfully marked pickup as completed")

/-- Allowed values of the `unit` select field on `FoodDonationForm`. -/
def unitChoices : List String :=
  ["kg", "lbs", "pieces", "portions", "liters", "bottles", "packages",
   "boxes", "bags", "other"]

/-- Allowed values of the `dietary_info` select field on
`FoodDonationForm` (the empty string means no restriction). -/
def dietaryChoices : List String :=
  ["", "vegetarian", "vegan", "gluten-free", "dairy-free", "nut-free",
   "halal", "kosher", "organic", "other"]

/-- The `DataRequired` validator on a string field: fails on empty or
whitespace-only data. -/
def dataRequiredStr (x : String) : Bool := strip x ≠ ""

/-- Raw submission of a `FoodDonationForm` (all free-text fields as
submitted, before trimming). -/
structure DonationForm where
  category_id : Nat
  title : String
  description : String
  quantity : Int
  unit : String
  expiry_date : Int
  pickup_address : String
  pickup_city : String
  pickup_instructions : String
  is_perishable : Bool
  dietary_info : String
deriving DecidableEq, Repr

/-- Validation of `FoodDonationForm`: the built-in required / length /
range / choice validators plus the custom expiry-date rule (not in the
past, not more than 365 days ahead).  `cats` is the list of category ids
the select field was populated with; when it is empty the form falls
back to the single sentinel choice 0. -/
def donationFormValid (today : Int) (cats : List Nat) (f : DonationForm) :
    Bool :=
  dataRequiredStr f.title && 3 ≤ f.title.length && f.title.length ≤ 100 &&
  f.description.length ≤ 500 &&
  f.category_id != 0 &&
  (if cats.isEmpty then [0] else cats).contains f.category_id &&
  f.quantity != 0 && 1 ≤ f.quantity && f.quantity ≤ 10000 &&
  dataRequiredStr f.unit && unitChoices.contains f.unit &&
  !(f.expiry_date < today) && !(f.expiry_date > today + 365) &&
  dataRequiredStr f.pickup_address &&
  10 ≤ f.pickup_address.length && f.pickup_address.length ≤ 500 &&
  dataRequiredStr f.pickup_city &&
  2 ≤ f.pickup_city.length && f.pickup_city.length ≤ 50 &&
  f.pickup_instructions.length ≤ 300 &&
  dietaryChoices.contains f.dietary_info

/-- Build the `FoodDonation` row created by `donor.add_donation` from a
validated form (free-text fields trimmed, empty optional fields stored
as null, status defaulting to `available`). -/
def donationOfForm (now : Int) (donor : Nat) (f : DonationForm) :
    FoodDonation :=
  { donor_id := donor,
    category_id := f.category_id,
    title := strip f.title,
    description := if f.description ≠ "" then some (strip f.description)
      else none,
    quantity := f.quantity,
    unit := f.unit,
    expiry_date := f.expiry_date,
    pickup_address := strip f.pickup_address,
    pickup_city := strip f.pickup_city,
    pickup_instructions := if f.pickup_instructions ≠ "" then
        some (strip f.pickup_instructions)
      else none,
    status := DonationStatus.available,
    is_perishable := f.is_perishable,
    dietary_info := if f.dietary_info ≠ "" then some f.dietary_info
      else none,
    created_at := now }

/-- Route `donor.add_donation`: on a valid form, insert a new donation
owned by the current donor with status `available`.  A primary-key
collision on the new id makes the commit fail and roll back. -/
def add_donation (today now : Int) (cats : List Nat) (donor : Nat)
    (f : DonationForm) (newDid : Nat) (s : AppState) : AppState × Outcome :=
  if !(donationFormValid today cats f) then
    (s, Outcome.formInvalid)
  else if (findEntry s.donations newDid).isSome then
    (s, Outcome.errFlash msgCommitError)
  else
    ({ s with donations :=
         s.donations ++ [(newDid, donationOfForm now donor f)] },
     Outcome.successFlash "Food donation has been added")

/-- Field updates performed on the donation row by `donor.edit_donation`:
every editable field is overwritten from the validated form; the status
(and the owning donor) are never touched. -/
def editFields (f : DonationForm) (d : FoodDonation) : FoodDonation :=
  { d with category_id := f.category_id,
           title := strip f.title,
           description := if f.description ≠ "" then
               some (strip f.description)
             else none,
           quantity := f.quantity,
           unit := f.unit,
           expiry_date := f.expiry_date,
           pickup_address := strip f.pickup_address,
           pickup_city := strip f.pickup_city,
           pickup_instructions := if f.pickup_instructions ≠ "" then
               some (strip f.pickup_instructions)
             else none,
           is_perishable := f.is_perishable,
           dietary_info := if f.dietary_info ≠ "" then
               some f.dietary_info
             else none }

/-- Route `donor.edit_donation`: only the owning donor, and only while
`can_be_edited`; updates all editable fields (never the status). -/
def edit_donation (today : Int) (cats : List Nat) (donor did : Nat)
    (f : DonationForm) (s : AppState) : AppState × Outcome :=
  match s.donations.find? (fun p => p.1 == did && p.2.donor_id == donor) with
  | none => (s, Outcome.notFound)
  | some pd =>
    if !pd.2.can_be_edited then
      (s, Outcome.errFlash "This donation cannot be edited")
    else if !(donationFormValid today cats f) then
      (s, Outcome.formInvalid)
    else
      let donations1 := updEntry s.donations did (editFields f)
      ({ s with donations := donations1 },
       Outcome.successFlash "Donation has been updated")

/-- Route `donor.delete_donation`: only the owning donor, and only while
`can_be_edited`; deletes the donation row, cascading to any claim rows
referencing it (`cascade 'all, delete-orphan'` on the relationship). -/
def delete_donation (donor did : Nat) (s : AppState) : AppState × Outcome :=
  match s.donations.find? (fun p => p.1 == did && p.2.donor_id == donor) with
  | none => (s, Outcome.notFound)
  | some pd =>
    if !pd.2.can_be_edited then
      (s, Outcome.errFlash "This donation cannot be deleted")
    else
      ({ donations := s.donations.filter (fun p => p.1 != did),
         claims := s.claims.filter (fun p => p.2.donation_id != did) },
       Outcome.successFlash "Donation has been deleted")

/-- One iteration of the expiry sweep loop in `donor.dashboard`: a
donation row owned by the current donor with status `available` goes
through `update_status_if_expired`; every other row is untouched (the
loop iterates over `filter_by(donor_id=..., status='available')`). -/
def sweepEntry (today : Int) (donor : Nat) (p : Nat × FoodDonation) :
    Nat × FoodDonation :=
  if p.2.donor_id = donor ∧ p.2.status = DonationStatus.available then
    (p.1, p.2.update_status_if_expired today)
  else p

/-- Expiry sweep run by the `donor.dashboard` route: every donation of the
current donor with status `available` goes through
`update_status_if_expired`, and the batch is committed. -/
def donor_dashboard (today : Int) (donor : Nat) (s : AppState) : AppState :=
  { s with donations := s.donations.map (sweepEntry today donor) }

/-- Route `donor.view_donation`: only the owning donor; runs
`update_status_if_expired` on the single viewed donation and commits. -/
def donor_view_donation (today : Int) (donor did : Nat) (s : AppState) :
    AppState × Outcome :=
  match s.donations.find? (fun p => p.1 == did && p.2.donor_id == donor) with
  | none => (s, Outcome.notFound)
  | some _ =>
    let donations1 :=
      updEntry s.donations did (fun d => d.update_status_if_expired today)
    ({ s with donations := donations1 }, Outcome.page)

/-- One application step: any exposed operation touching the donation /
claim tables (claim creation, claim update, direct cancel, complete
pickup, donation create / edit / delete, and the lazy expiry sweeps run
by the donor dashboard and donor detail view), with arbitrary request
parameters and an arbitrary current date. -/
inductive Step : AppState → AppState → Prop
  | claim (today : Int) (ngo did : Nat) (notes : String) (newCid : Nat)
      (s : AppState) : Step s (claim_donation today ngo did notes newCid s).1
  | update (now : Int) (ngo cid : Nat) (st : ClaimStatus) (notes : String)
      (s : AppState) : Step s (update_claim now ngo cid st notes s).1
  | cancel (ngo cid : Nat) (reasonParam : Option String) (s : AppState) :
      Step s (cancel_claim ngo cid reasonParam s).1
  | complete (now : Int) (ngo cid : Nat) (s : AppState) :
      Step s (complete_pickup now ngo cid s).1
  | add (today now : Int) (cats : List Nat) (donor : Nat) (f : DonationForm)
      (newDid : Nat) (s : AppState) :
      Step s (add_donation today now cats donor f newDid s).1
  | edit (today : Int) (cats : List Nat) (donor did : Nat)
      (f : DonationForm) (s : AppState) :
      Step s (edit_donation today cats donor did f s).1
  | del (donor did : Nat) (s : AppState) :
      Step s (delete_donation donor did s).1
  | sweep (today : Int) (donor : Nat) (s : AppState) :
      Step s (donor_dashboard today donor s)
  | view (today : Int) (donor did : Nat) (s : AppState) :
      Step s (donor_view_donation today donor did s).1

/-- States reachable from the empty database through the exposed
operations. -/
inductive Reachable : AppState → Prop
  | init : Reachable ⟨[], []⟩
  | step {s s' : AppState} : Reachable s → Step s s' → Reachable s'

theorem updEntry_cons (p : Nat × α) (t : List (Nat × α)) (k : Nat)
    (f : α → α) :
    updEntry (p :: t) k f =
      (if p.1 = k then (p.1, f p.2) else p) :: updEntry t k f := rfl

theorem findEntry_cons (p : Nat × α) (t : List (Nat × α)) (k : Nat) :
    findEntry (p :: t) k = if p.1 = k then some p.2 else findEntry t k := by
  by_cases h : p.1 = k <;> simp [findEntry, h]

theorem updEntry_map_fst (l : List (Nat × α)) (k : Nat) (f : α → α) :
    (updEntry l k f).map Prod.fst = l.map Prod.fst := by
  induction l with
  | nil => rfl
  | cons p t ih =>
    rw [updEntry_cons]
    by_cases h : p.1 = k <;> simp [h, ih]

theorem findEntry_updEntry_self (l : List (Nat × α)) (k : Nat) (f : α → α) :
    findEntry (updEntry l k f) k = (findEntry l k).map f := by
  induction l with
  | nil => rfl
  | cons p t ih =>
    rw [updEntry_cons]
    by_cases h : p.1 = k
    · simp [findEntry_cons, h]
    · simp [findEntry_cons, h, ih]

theorem findEntry_updEntry_ne (l : List (Nat × α)) (k k' : Nat) (f : α → α)
    (h : k' ≠ k) : findEntry (updEntry l k f) k' = findEntry l k' := by
  induction l with
  | nil => rfl
  | cons p t ih =>
    rw [updEntry_cons]
    by_cases hp : p.1 = k
    · have hp' : ¬p.1 = k' := by rw [hp]; exact fun hh => h hh.symm
      rw [findEntry_cons, findEntry_cons, if_neg hp',
        if_neg (by simp [hp]; exact fun hh => h (Eq.symm hh) :
          ¬(if p.1 = k then (p.1, f p.2) else p).1 = k')]
      exact ih
    · rw [findEntry_cons, findEntry_cons, if_neg hp]
      by_cases hq : p.1 = k' <;> simp [hq, ih]

theorem findEntry_map_keys (g : Nat × α → Nat × β)
    (hg : ∀ p, (g p).1 = p.1) (l : List (Nat × α)) (k : Nat) :
    findEntry (l.map g) k =
      (l.find? (fun p => p.1 == k)).map (fun p => (g p).2) := by
  induction l with
  | nil => rfl
  | cons p t ih =>
    rw [List.map_cons, findEntry_cons]
    by_cases h : p.1 = k
    · simp [hg, h]
    · simp [hg, h, ih]

theorem findEntry_eq_of_mem_nodup {l : List (Nat × α)} {k : Nat} {c : α}
    (hn : (l.map Prod.fst).Nodup) (hm : (k, c) ∈ l) :
    findEntry l k = some c := by
  induction l with
  | nil => cases hm
  | cons p t ih =>
    rw [List.map_cons, List.nodup_cons] at hn
    rcases List.mem_cons.mp hm with hm1 | hm1
    · simp [findEntry_cons, ← hm1]
    · have hk : k ∈ t.map Prod.fst :=
        List.mem_map.mpr ⟨(k, c), hm1, rfl⟩
      have hp : p.1 ≠ k := fun h => hn.1 (h ▸ hk)
      rw [findEntry_cons, if_neg hp]
      exact ih hn.2 hm1

theorem ngoLookup_spec {l : List (Nat × Claim)} {cid ngo : Nat}
    {pc : Nat × Claim}
    (hn : (l.map Prod.fst).Nodup)
    (h : l.find? (fun p => p.1 == cid && p.2.ngo_id == ngo) = some pc) :
    pc.1 = cid ∧ pc.2.ngo_id = ngo ∧ findEntry l cid = some pc.2 := by
  have hp := List.find?_some h
  rw [Bool.and_eq_true, beq_iff_eq, beq_iff_eq] at hp
  have hm : pc ∈ l := List.mem_of_find?_eq_some h
  have hm' : (cid, pc.2) ∈ l := by
    have : pc = (cid, pc.2) := by
      rcases pc with ⟨a, b⟩; simp_all
    exact this ▸ hm
  exact ⟨hp.1, hp.2, findEntry_eq_of_mem_nodup hn hm'⟩

theorem updEntry_updEntry (l : List (Nat × α)) (k : Nat) (f g : α → α) :
    updEntry (updEntry l k f) k g = updEntry l k (fun a => g (f a)) := by
  induction l with
  | nil => rfl
  | cons p t ih =>
    rw [updEntry_cons, updEntry_cons, updEntry_cons]
    by_cases h : p.1 = k <;> simp [h, ih]

theorem claimOf_eq_none_iff (s : AppState) (did : Nat) :
    claimOf s did = none ↔ ∀ p ∈ s.claims, p.2.donation_id ≠ did := by
  simp [claimOf, List.find?_eq_none]

theorem cancel_claim_eq (s : AppState) (cid : Nat) (reason : String)
    (c : Claim) (h : findEntry s.claims cid = some c) :
    Claim.cancel_claim reason cid s =
      { donations := updEntry s.donations c.donation_id
          (setDStatus DonationStatus.available),
        claims := updEntry s.claims cid (cancelFields reason) } := by
  simp only [Claim.cancel_claim, h]

theorem mark_as_completed_eq (s : AppState) (cid : Nat) (now : Int)
    (c : Claim) (h : findEntry s.claims cid = some c) :
    Claim.mark_as_completed now cid s =
      { donations := updEntry s.donations c.donation_id
          (setDStatus DonationStatus.completed),
        claims := updEntry s.claims cid (completeFields now) } := by
  simp only [Claim.mark_as_completed, h]

theorem update_claim_cancelled_eq (now : Int) (ngo cid : Nat)
    (notes : String) (s : AppState) (pc : Nat × Claim)
    (hfind : s.claims.find? (fun p => p.1 == cid && p.2.ngo_id == ngo) =
      some pc)
    (hnotes : ¬notes.length > notesMax) :
    update_claim now ngo cid ClaimStatus.cancelled notes s =
      (Claim.cancel_claim notes cid
        (AppState.mk s.donations
          (updEntry s.claims cid (updateClaimFields ClaimStatus.cancelled notes))),
       Outcome.successFlash msgClaimUpdated) := by
  simp [update_claim, hfind, hnotes]

/-- Concrete available, unexpired (for dates up to 10) donation used by
the example states. -/
def dAvail : FoodDonation :=
  { donor_id := 7, category_id := 1, title := "Bread",
    description := some "fresh bread", quantity := 5, unit := "pieces",
    expiry_date := 10, pickup_address := "12 Bakery Street",
    pickup_city := "Springfield", pickup_instructions := none,
    status := DonationStatus.available, is_perishable := true,
    dietary_info := some "vegan", created_at := 0 }

/-- State with one available donation (key 1) and no claims. -/
def sAvail : AppState := { donations := [(1, dAvail)], claims := [] }

/-- State after NGO 9 claims donation 1 (claim key 1, notes submitted). -/
def sClaimed : AppState := (claim_donation 0 9 1 "please hold" 1 sAvail).1

/-- The claim row stored in `sClaimed`. -/
def cClaimedRec : Claim :=
  { donation_id := 1, ngo_id := 9, status := ClaimStatus.claimed,
    notes := some "please hold", completed_at := none }

/-- State after NGO 9 cancels its claim through the direct cancel route. -/
def sCancelled : AppState := (cancel_claim 9 1 (some "changed plans") sClaimed).1

/-- State after NGO 9 moves its claim to picked_up through update-claim. -/
def sPicked : AppState :=
  (update_claim 3 9 1 ClaimStatus.picked_up "" sClaimed).1

/-- C6: for every claim owned by the requesting NGO, the complete-pickup
action: if the claim's status is already completed it informs the caller
and changes nothing; otherwise, from any other prior status, it sets the
claim's status to completed, stamps completed_at, and sets the parent
donation's status to completed. -/
theorem C6_complete_pickup (s : AppState) (now : Int) (ngo cid : Nat)
    (pc : Nat × Claim)
    (hkeysC : (s.claims.map Prod.fst).Nodup)
    (hfind : s.claims.find? (fun p => p.1 == cid && p.2.ngo_id == ngo) =
      some pc) :
    (pc.2.status = ClaimStatus.completed →
      complete_pickup now ngo cid s = (s, Outcome.infoFlash msgAlreadyCompleted)) ∧
    (pc.2.status ≠ ClaimStatus.completed →
      (complete_pickup now ngo cid s).2 =
        Outcome.successFlash "Successfully marked pickup as completed" ∧
      findEntry (complete_pickup now ngo cid s).1.claims cid =
        some { pc.2 with status := ClaimStatus.completed,
                         completed_at := some now } ∧
      ∀ d, findEntry s.donations pc.2.donation_id = some d →
        findEntry (complete_pickup now ngo cid s).1.donations
            pc.2.donation_id =
          some { d with status := DonationStatus.completed }) := by
  obtain ⟨hcid, hngo, hfe⟩ := ngoLookup_spec hkeysC hfind
  constructor
  · intro hc
    simp only [complete_pickup, hfind, if_pos hc]
  · intro hc
    simp only [complete_pickup, hfind, if_neg hc,
      mark_as_completed_eq s cid now pc.2 hfe]
    refine ⟨by trivial, ?_, ?_⟩
    · rw [findEntry_updEntry_self, hfe]; rfl
    · intro d hd
      rw [findEntry_updEntry_self, hd]; rfl

/-- C4: for every claim owned by the requesting NGO, update-claim with
target status cancelled succeeds from every prior claim status (the
theorem places no constraint on the prior status), whereas the direct
cancel-claim action succeeds only when the prior status is claimed or
scheduled, and is otherwise rejected with an error and no state
change. -/
theorem C4_cancel_paths (s : AppState) (now : Int) (ngo cid : Nat)
    (pc : Nat × Claim) (notes : String) (reasonParam : Option String)
    (hkeysC : (s.claims.map Prod.fst).Nodup)
    (hnotes : notes.length ≤ notesMax)
    (hfind : s.claims.find? (fun p => p.1 == cid && p.2.ngo_id == ngo) =
      some pc) :
    ((update_claim now ngo cid ClaimStatus.cancelled notes s).2 =
        Outcome.successFlash msgClaimUpdated ∧
      ∃ c', findEntry
          (update_claim now ngo cid ClaimStatus.cancelled notes s).1.claims
          cid = some c' ∧ c'.status = ClaimStatus.cancelled) ∧
    (pc.2.status = ClaimStatus.claimed ∨ pc.2.status = ClaimStatus.scheduled →
      (cancel_claim ngo cid reasonParam s).2 = Outcome.infoFlash msgCancelledOk ∧
      ∃ c', findEntry (cancel_claim ngo cid reasonParam s).1.claims cid =
        some c' ∧ c'.status = ClaimStatus.cancelled) ∧
    (¬(pc.2.status = ClaimStatus.claimed ∨ pc.2.status = ClaimStatus.scheduled) →
      cancel_claim ngo cid reasonParam s = (s, Outcome.errFlash msgCannotCancel)) := by
  obtain ⟨hcid, hngo, hfe⟩ := ngoLookup_spec hkeysC hfind
  have h1 : findEntry (updEntry s.claims cid
      (updateClaimFields ClaimStatus.cancelled notes)) cid =
      some (updateClaimFields ClaimStatus.cancelled notes pc.2) := by
    rw [findEntry_updEntry_self, hfe]; rfl
  refine ⟨?_, ?_, ?_⟩
  · rw [update_claim_cancelled_eq now ngo cid notes s pc hfind (by omega),
      cancel_claim_eq _ cid notes _ h1]
    refine ⟨by trivial, ?_⟩
    refine ⟨cancelFields notes (updateClaimFields ClaimStatus.cancelled notes pc.2),
      ?_, rfl⟩
    rw [findEntry_updEntry_self, h1]; rfl
  · intro hst
    have hcan : pc.2.can_be_cancelled = true := by
      rcases hst with h | h <;> simp [Claim.can_be_cancelled, h]
    simp only [cancel_claim, hfind, hcan, Bool.not_true, Bool.false_eq_true,
      if_false, cancel_claim_eq s cid _ pc.2 hfe]
    refine ⟨by trivial, ?_⟩
    refine ⟨cancelFields (reasonParam.getD defaultCancelReason) pc.2, ?_, rfl⟩
    rw [findEntry_updEntry_self, hfe]; rfl
  · intro hst
    have hcan : pc.2.can_be_cancelled = false := by
      cases h : pc.2.status <;> simp [Claim.can_be_cancelled, h] <;>
        simp [h] at hst
    simp only [cancel_claim, hfind, hcan]
    rfl

/-- The claim row stored in `sPicked`. -/
def cPickedRec : Claim :=
  { donation_id := 1, ngo_id := 9, status := ClaimStatus.picked_up,
    notes := some "please hold", completed_at := none }

/-- Witness for C6 at a concrete claimed state: the hypotheses hold and
completing the pickup succeeds. -/
theorem C6_complete_pickup_witness :
    ((sClaimed.claims.map Prod.fst).Nodup ∧
      sClaimed.claims.find? (fun p => p.1 == 1 && p.2.ngo_id == 9) =
        some (1, cClaimedRec)) ∧
    (complete_pickup 5 9 1 sClaimed).2 =
      Outcome.successFlash "Successfully marked pickup as completed" :=
  ⟨⟨by decide, by decide⟩,
   ((C6_complete_pickup sClaimed 5 9 1 (1, cClaimedRec) (by decide)
       (by decide)).2 (by decide)).1⟩

/-- Witness for C4 at a concrete picked_up state: the hypotheses hold and
the direct cancel action is rejected without a state change. -/
theorem C4_cancel_paths_witness :
    ((sPicked.claims.map Prod.fst).Nodup ∧
      String.length "" ≤ notesMax ∧
      sPicked.claims.find? (fun p => p.1 == 1 && p.2.ngo_id == 9) =
        some (1, cPickedRec)) ∧
    cancel_claim 9 1 none sPicked = (sPicked, Outcome.errFlash msgCannotCancel) :=
  ⟨⟨by decide, by decide, by decide⟩,
   (C4_cancel_paths sPicked 3 9 1 (1, cPickedRec) "" none (by decide)
       (by decide) (by decide)).2.2 (by decide)⟩

/-- C5 (amended): cancelling through update-claim with target status
cancelled always sets the claim status to cancelled and reverts the
parent donation to available; the notes are overwritten with
"Cancelled: " followed by the submitted notes when the submitted notes
are non-empty, and are left unchanged when the submitted notes are
empty. -/
theorem C5_update_claim_cancel (s : AppState) (now : Int) (ngo cid : Nat)
    (pc : Nat × Claim) (notes : String)
    (hkeysC : (s.claims.map Prod.fst).Nodup)
    (hnotes : notes.length ≤ notesMax)
    (hfind : s.claims.find? (fun p => p.1 == cid && p.2.ngo_id == ngo) =
      some pc) :
    (update_claim now ngo cid ClaimStatus.cancelled notes s).2 =
      Outcome.successFlash msgClaimUpdated ∧
    (∃ c', findEntry
        (update_claim now ngo cid ClaimStatus.cancelled notes s).1.claims
        cid = some c' ∧
      c'.status = ClaimStatus.cancelled ∧
      c'.notes = (if notes ≠ "" then some (cancelNoteTag ++ notes)
        else pc.2.notes) ∧
      c'.donation_id = pc.2.donation_id ∧
      c'.completed_at = pc.2.completed_at) ∧
    (∀ d, findEntry s.donations pc.2.donation_id = some d →
      findEntry
          (update_claim now ngo cid ClaimStatus.cancelled notes s).1.donations
          pc.2.donation_id =
        some { d with status := DonationStatus.available }) := by
  obtain ⟨hcid, hngo, hfe⟩ := ngoLookup_spec hkeysC hfind
  have h1 : findEntry (updEntry s.claims cid
      (updateClaimFields ClaimStatus.cancelled notes)) cid =
      some (updateClaimFields ClaimStatus.cancelled notes pc.2) := by
    rw [findEntry_updEntry_self, hfe]; rfl
  rw [update_claim_cancelled_eq now ngo cid notes s pc hfind (by omega),
    cancel_claim_eq _ cid notes _ h1]
  refine ⟨by trivial, ?_, ?_⟩
  · refine ⟨cancelFields notes (updateClaimFields ClaimStatus.cancelled notes pc.2),
      ?_, rfl, ?_, rfl, rfl⟩
    · rw [findEntry_updEntry_self, h1]; rfl
    · by_cases hn : notes = "" <;>
        simp [cancelFields, updateClaimFields, hn]
  · intro d hd
    have h2 : (updateClaimFields ClaimStatus.cancelled notes pc.2).donation_id =
        pc.2.donation_id := rfl
    rw [h2, findEntry_updEntry_self, hd]
    rfl

/-- C5 counterexample: at a concrete claimed state whose claim carries
notes "please hold", cancelling through update-claim with empty
submitted notes leaves the notes at "please hold" instead of prefixing
them with "Cancelled: ". -/
theorem C5_counterexample :
    (findEntry (update_claim 5 9 1 ClaimStatus.cancelled "" sClaimed).1.claims
        1).map Claim.notes = some (some "please hold") ∧
    ¬((findEntry (update_claim 5 9 1 ClaimStatus.cancelled "" sClaimed).1.claims
        1).map Claim.notes = some (some (cancelNoteTag ++ ""))) := by
  decide

/-- Witness for C5 at a concrete claimed state with non-empty notes. -/
theorem C5_update_claim_cancel_witness :
    ((sClaimed.claims.map Prod.fst).Nodup ∧
      String.length "no van" ≤ notesMax ∧
      sClaimed.claims.find? (fun p => p.1 == 1 && p.2.ngo_id == 9) =
        some (1, cClaimedRec)) ∧
    (update_claim 5 9 1 ClaimStatus.cancelled "no van" sClaimed).2 =
      Outcome.successFlash msgClaimUpdated :=
  ⟨⟨by decide, by decide, by decide⟩,
   (C5_update_claim_cancel sClaimed 5 9 1 (1, cClaimedRec) "no van"
       (by decide) (by decide) (by decide)).1⟩

theorem findEntry_some_elim {l : List (Nat × α)} {k : Nat} {d : α}
    (h : findEntry l k = some d) :
    l.find? (fun p => p.1 == k) = some (k, d) := by
  unfold findEntry at h
  obtain ⟨q, hq, hq2⟩ := Option.map_eq_some'.mp h
  have hk := List.find?_some hq
  rw [beq_iff_eq] at hk
  rcases q with ⟨a, b⟩
  simp only at hq2 hk
  rw [hq2] at hq
  rw [hk] at hq
  exact hq

theorem find?_conj_of_key {l : List (Nat × α)} {k : Nat} {q : Nat × α}
    (h : l.find? (fun p => p.1 == k) = some q) (g : Nat × α → Bool)
    (hg : g q = true) :
    l.find? (fun p => p.1 == k && g p) = some q := by
  induction l with
  | nil => simp at h
  | cons p t ih =>
    by_cases hk : p.1 = k
    · rw [List.find?_cons_of_pos _ (by simp [hk])] at h
      obtain rfl := Option.some.inj h
      rw [List.find?_cons_of_pos _ (by simp [hk, hg])]
    · rw [List.find?_cons_of_neg _ (by simp [hk])] at h
      rw [List.find?_cons_of_neg _ (by simp [hk])]
      exact ih h

theorem update_status_if_expired_donor (d : FoodDonation) (today : Int) :
    (d.update_status_if_expired today).donor_id = d.donor_id := by
  unfold FoodDonation.update_status_if_expired
  split <;> rfl

theorem update_status_if_expired_idem (d : FoodDonation) (today : Int) :
    (d.update_status_if_expired today).update_status_if_expired today =
      d.update_status_if_expired today := by
  by_cases h : (d.is_expired today && d.status == DonationStatus.available) = true
  · have h1 : d.update_status_if_expired today =
        { d with status := DonationStatus.expired } := by
      rw [FoodDonation.update_status_if_expired, if_pos h]
    rw [h1, FoodDonation.update_status_if_expired, if_neg (by simp)]
  · have h1 : d.update_status_if_expired today = d := by
      rw [FoodDonation.update_status_if_expired, if_neg h]
    rw [h1, h1]

theorem sweepEntry_fst (today : Int) (donor : Nat) (p : Nat × FoodDonation) :
    (sweepEntry today donor p).1 = p.1 := by
  unfold sweepEntry
  split <;> rfl

theorem sweepEntry_idem (today : Int) (donor : Nat) (p : Nat × FoodDonation) :
    sweepEntry today donor (sweepEntry today donor p) =
      sweepEntry today donor p := by
  by_cases h : p.2.donor_id = donor ∧ p.2.status = DonationStatus.available
  · have h1 : sweepEntry today donor p =
        (p.1, p.2.update_status_if_expired today) := by
      rw [sweepEntry, if_pos h]
    rw [h1, sweepEntry]
    split
    · exact congrArg (Prod.mk p.1) (update_status_if_expired_idem p.2 today)
    · rfl
  · have h1 : sweepEntry today donor p = p := by
      rw [sweepEntry, if_neg h]
    rw [h1, h1]

theorem donor_view_eq (today : Int) (donor did : Nat) (s : AppState)
    (q : Nat × FoodDonation)
    (h : s.donations.find? (fun p => p.1 == did && p.2.donor_id == donor) =
      some q) :
    donor_view_donation today donor did s =
      (AppState.mk
        (updEntry s.donations did (fun d => d.update_status_if_expired today))
        s.claims, Outcome.page) := by
  simp only [donor_view_donation, h]

theorem updEntry_congr (l : List (Nat × α)) (k : Nat) (f g : α → α)
    (h : ∀ a, f a = g a) : updEntry l k f = updEntry l k g := by
  unfold updEntry
  apply List.map_congr_left
  intro p _
  by_cases hp : p.1 = k <;> simp [hp, h]

/-- C3: a donation of the requesting donor that is `available` and past
its expiry date is flipped to `expired` (and the change committed) by
loading the donor dashboard or that donation's donor detail view; a
second load of either page changes nothing further; and a donation
whose expiry date is today or later, or whose status is not `available`,
is never modified by these loads. -/
theorem C3_lazy_expiry (s : AppState) (today : Int) (donor did : Nat)
    (d : FoodDonation)
    (hd : findEntry s.donations did = some d)
    (hdon : d.donor_id = donor) :
    (d.status = DonationStatus.available → d.expiry_date < today →
      findEntry (donor_dashboard today donor s).donations did =
        some { d with status := DonationStatus.expired } ∧
      findEntry ((donor_view_donation today donor did s).1).donations did =
        some { d with status := DonationStatus.expired } ∧
      findEntry ((donor_view_donation today donor did
          (donor_dashboard today donor s)).1).donations did =
        some { d with status := DonationStatus.expired } ∧
      findEntry (donor_dashboard today donor
          ((donor_view_donation today donor did s).1)).donations did =
        some { d with status := DonationStatus.expired }) ∧
    donor_dashboard today donor (donor_dashboard today donor s) =
      donor_dashboard today donor s ∧
    (donor_view_donation today donor did
        ((donor_view_donation today donor did s).1)).1 =
      (donor_view_donation today donor did s).1 ∧
    (d.status ≠ DonationStatus.available ∨ today ≤ d.expiry_date →
      findEntry (donor_dashboard today donor s).donations did = some d ∧
      findEntry ((donor_view_donation today donor did s).1).donations did =
        some d) := by
  have hq : s.donations.find? (fun p => p.1 == did) = some (did, d) :=
    findEntry_some_elim hd
  have hq2 : s.donations.find?
      (fun p => p.1 == did && p.2.donor_id == donor) = some (did, d) :=
    find?_conj_of_key hq (fun p => p.2.donor_id == donor) (by simp [hdon])
  have hview := donor_view_eq today donor did s (did, d) hq2
  have hsweepFind : ∀ s' : AppState, ∀ q : Nat × FoodDonation,
      s'.donations.find? (fun p => p.1 == did) = some q →
      findEntry (donor_dashboard today donor s').donations did =
        some (sweepEntry today donor q).2 := by
    intro s' q hq'
    show findEntry (s'.donations.map (sweepEntry today donor)) did = _
    rw [findEntry_map_keys (sweepEntry today donor)
      (sweepEntry_fst today donor), hq', Option.map_some']
  refine ⟨?_, ?_, ?_, ?_⟩
  · intro hav hexp
    have hupd : d.update_status_if_expired today =
        { d with status := DonationStatus.expired } := by
      rw [FoodDonation.update_status_if_expired,
        if_pos (by simp [FoodDonation.is_expired, hexp, hav])]
    have hsw : sweepEntry today donor (did, d) =
        (did, { d with status := DonationStatus.expired }) := by
      rw [sweepEntry, if_pos ⟨hdon, hav⟩, hupd]
    have hviewFind : findEntry
        ((donor_view_donation today donor did s).1).donations did =
        some { d with status := DonationStatus.expired } := by
      rw [hview]
      show findEntry (updEntry s.donations did
        (fun x => x.update_status_if_expired today)) did = _
      rw [findEntry_updEntry_self, hd, Option.map_some', hupd]
    have hsweep1 : findEntry (donor_dashboard today donor s).donations did =
        some { d with status := DonationStatus.expired } := by
      rw [hsweepFind s (did, d) hq, hsw]
    refine ⟨hsweep1, hviewFind, ?_, ?_⟩
    · -- view after sweep
      have hq1 := findEntry_some_elim hsweep1
      have hq1c := find?_conj_of_key hq1 (fun p => p.2.donor_id == donor)
        (by simp [hdon])
      rw [donor_view_eq today donor did (donor_dashboard today donor s) _ hq1c]
      show findEntry (updEntry (donor_dashboard today donor s).donations did
        (fun x => x.update_status_if_expired today)) did = _
      rw [findEntry_updEntry_self, hsweep1, Option.map_some',
        FoodDonation.update_status_if_expired, if_neg (by simp)]
    · -- sweep after view
      have hq1 := findEntry_some_elim hviewFind
      rw [hsweepFind _ _ hq1, sweepEntry, if_neg (by simp)]
  · simp only [donor_dashboard, List.map_map]
    congr 1
    apply List.map_congr_left
    intro p _
    exact sweepEntry_idem today donor p
  · rw [hview]
    have hff : (fun p : Nat × FoodDonation =>
        p.1 == did && p.2.donor_id == donor) ∘
        (fun p : Nat × FoodDonation =>
          if p.1 = did then (p.1, p.2.update_status_if_expired today) else p) =
        (fun p : Nat × FoodDonation =>
          p.1 == did && p.2.donor_id == donor) := by
      funext p
      by_cases hp : p.1 = did <;>
        simp [hp, update_status_if_expired_donor]
    have hfind2 : (updEntry s.donations did
        (fun x => x.update_status_if_expired today)).find?
        (fun p => p.1 == did && p.2.donor_id == donor) =
        some (did, d.update_status_if_expired today) := by
      show (s.donations.map _).find? _ = _
      rw [List.find?_map, hff, hq2, Option.map_some']
      simp
    rw [donor_view_eq today donor did _ _ hfind2]
    show (AppState.mk (updEntry (updEntry s.donations did
        (fun x => x.update_status_if_expired today)) did
        (fun x => x.update_status_if_expired today)) s.claims, Outcome.page).1 = _
    rw [updEntry_updEntry,
      updEntry_congr _ _ _ (fun x => x.update_status_if_expired today)
        (fun a => update_status_if_expired_idem a today)]
  · intro hfr
    have hupd2 : d.update_status_if_expired today = d := by
      rw [FoodDonation.update_status_if_expired, if_neg ?hc]
      case hc =>
        rcases hfr with h | h <;> simp [FoodDonation.is_expired, h]
    have hsw2 : sweepEntry today donor (did, d) = (did, d) := by
      rw [sweepEntry]
      split
      · rw [show ((did, d) : Nat × FoodDonation).2 = d from rfl, hupd2]
      · rfl
    refine ⟨?_, ?_⟩
    · rw [hsweepFind s (did, d) hq, hsw2]
    · rw [hview]
      show findEntry (updEntry s.donations did
        (fun x => x.update_status_if_expired today)) did = _
      rw [findEntry_updEntry_self, hd, Option.map_some', hupd2]

/-- Database consistency of the two tables: distinct primary keys,
uniqueness of the claim's donation reference, foreign-key integrity from
claims to donations, every donation with status claimed or completed has
an associated claim row, and a completed claim's donation has status
completed. -/
def TablesOk (ds : List (Nat × FoodDonation)) (cs : List (Nat × Claim)) :
    Prop :=
  (ds.map Prod.fst).Nodup ∧
  (cs.map Prod.fst).Nodup ∧
  (cs.map (fun p => p.2.donation_id)).Nodup ∧
  (∀ p ∈ cs, p.2.donation_id ∈ ds.map Prod.fst) ∧
  (∀ q ∈ ds,
    q.2.status = DonationStatus.claimed ∨
      q.2.status = DonationStatus.completed →
    ∃ p ∈ cs, p.2.donation_id = q.1) ∧
  (∀ p ∈ cs, p.2.status = ClaimStatus.completed →
    ∀ q ∈ ds, q.1 = p.2.donation_id →
      q.2.status = DonationStatus.completed)

/-- The invariant every reachable application state satisfies. -/
def Inv (s : AppState) : Prop := TablesOk s.donations s.claims

theorem mem_updEntry {l : List (Nat × α)} {k : Nat} {f : α → α}
    {q' : Nat × α} (h : q' ∈ updEntry l k f) :
    ∃ q, q ∈ l ∧ q' = if q.1 = k then (q.1, f q.2) else q := by
  unfold updEntry at h
  obtain ⟨q, hq, hq2⟩ := List.mem_map.mp h
  exact ⟨q, hq, hq2.symm⟩

theorem updEntry_mem {l : List (Nat × α)} {k : Nat} {f : α → α}
    {q : Nat × α} (h : q ∈ l) :
    (if q.1 = k then (q.1, f q.2) else q) ∈ updEntry l k f :=
  List.mem_map.mpr ⟨q, h, rfl⟩

theorem mem_updEntry_cases {l : List (Nat × α)} {k : Nat} {f : α → α}
    {q' : Nat × α} (h : q' ∈ updEntry l k f) :
    ∃ q, q ∈ l ∧ q'.1 = q.1 ∧
      ((q.1 = k ∧ q'.2 = f q.2) ∨ (¬q.1 = k ∧ q'.2 = q.2)) := by
  obtain ⟨q, hq, hq2⟩ := mem_updEntry h
  by_cases hqk : q.1 = k
  · rw [if_pos hqk] at hq2
    exact ⟨q, hq, by rw [hq2], Or.inl ⟨hqk, by rw [hq2]⟩⟩
  · rw [if_neg hqk] at hq2
    exact ⟨q, hq, by rw [hq2], Or.inr ⟨hqk, by rw [hq2]⟩⟩

theorem updEntry_mem_proj {l : List (Nat × α)} {k : Nat} {f : α → α}
    {g : α → β} (hf : ∀ a, g (f a) = g a) {p : Nat × α} (h : p ∈ l) :
    ∃ p' ∈ updEntry l k f, p'.1 = p.1 ∧ g p'.2 = g p.2 := by
  refine ⟨_, updEntry_mem h, ?_, ?_⟩ <;>
    by_cases hpk : p.1 = k <;> simp [hpk, hf]

theorem map_snd_updEntry (l : List (Nat × α)) (k : Nat) (f : α → α)
    (g : α → β) (hf : ∀ a, g (f a) = g a) :
    (updEntry l k f).map (fun p => g p.2) = l.map (fun p => g p.2) := by
  unfold updEntry
  rw [List.map_map]
  apply List.map_congr_left
  intro p _
  by_cases hp : p.1 = k <;> simp [hp, hf]

theorem findEntry_mem {l : List (Nat × α)} {k : Nat} {d : α}
    (h : findEntry l k = some d) : (k, d) ∈ l :=
  List.mem_of_find?_eq_some (findEntry_some_elim h)

theorem findEntry_eq_none_iff (l : List (Nat × α)) (k : Nat) :
    findEntry l k = none ↔ ∀ q ∈ l, q.1 ≠ k := by
  unfold findEntry
  simp [List.find?_eq_none]

theorem claimOf_isSome_iff (s : AppState) (did : Nat) :
    (claimOf s did).isSome ↔ ∃ p ∈ s.claims, p.2.donation_id = did := by
  unfold claimOf
  simp [List.find?_isSome]

theorem uniqueEntry_of_nodup {l : List (Nat × α)} {k : Nat} {c : α}
    {p : Nat × α} (hn : (l.map Prod.fst).Nodup)
    (hfe : findEntry l k = some c) (hp : p ∈ l) (hpk : p.1 = k) :
    p.2 = c := by
  have hfp : findEntry l k = some p.2 :=
    findEntry_eq_of_mem_nodup hn (by rw [← hpk]; exact hp)
  rw [hfe] at hfp
  exact (Option.some.inj hfp).symm

theorem inv_mark_general (s : AppState) (cid : Nat) (f : Claim → Claim)
    (c : Claim) (hfid : ∀ a, (f a).donation_id = a.donation_id)
    (_hfst : ∀ a, (f a).status = ClaimStatus.completed) (hInv : Inv s)
    (hfe : findEntry s.claims cid = some c) :
    Inv (AppState.mk
      (updEntry s.donations c.donation_id (setDStatus DonationStatus.completed))
      (updEntry s.claims cid f)) := by
  obtain ⟨h1, h2, h3, h4, h5, h6⟩ := hInv
  have hcmem : (cid, c) ∈ s.claims := findEntry_mem hfe
  have hcimg : (cid, f c) ∈ updEntry s.claims cid f := by
    have := updEntry_mem (k := cid) (f := f) hcmem
    rwa [if_pos rfl] at this
  refine ⟨?_, ?_, ?_, ?_, ?_, ?_⟩
  · show ((updEntry s.donations c.donation_id
      (setDStatus DonationStatus.completed)).map Prod.fst).Nodup
    rw [updEntry_map_fst]; exact h1
  · show ((updEntry s.claims cid f).map Prod.fst).Nodup
    rw [updEntry_map_fst]; exact h2
  · show ((updEntry s.claims cid f).map (fun p => p.2.donation_id)).Nodup
    rw [map_snd_updEntry s.claims cid f Claim.donation_id hfid]
    exact h3
  · intro p hp
    obtain ⟨q, hq, hk, hcases⟩ := mem_updEntry_cases hp
    have hdid : p.2.donation_id = q.2.donation_id := by
      rcases hcases with ⟨_, h⟩ | ⟨_, h⟩ <;> simp [h, hfid]
    show p.2.donation_id ∈ (updEntry s.donations c.donation_id
      (setDStatus DonationStatus.completed)).map Prod.fst
    rw [updEntry_map_fst, hdid]
    exact h4 q hq
  · intro q' hq' hst
    obtain ⟨q, hq, hk, hcases⟩ := mem_updEntry_cases hq'
    rcases hcases with ⟨hqk, hqval⟩ | ⟨hqk, hqval⟩
    · exact ⟨(cid, f c), hcimg, by rw [hk, hqk]; exact hfid c⟩
    · obtain ⟨p, hp, hpd⟩ := h5 q hq (by rw [← hqval]; exact hst)
      obtain ⟨p', hp', hpk', hpd'⟩ :=
        updEntry_mem_proj (g := Claim.donation_id) (k := cid) (f := f)
          hfid hp
      exact ⟨p', hp', by rw [hpd', hpd, hk]⟩
  · intro p' hp' hpst q' hq' hkey
    obtain ⟨q, hq, hqk1, hqcases⟩ := mem_updEntry_cases hq'
    rcases hqcases with ⟨hqk, hqval⟩ | ⟨hqk, hqval⟩
    · rw [hqval]; rfl
    · obtain ⟨p, hp, hpk1, hpcases⟩ := mem_updEntry_cases hp'
      rcases hpcases with ⟨hpk, hpval⟩ | ⟨hpk, hpval⟩
      · have hpc : p.2 = c := uniqueEntry_of_nodup h2 hfe hp hpk
        have : q.1 = c.donation_id := by
          rw [← hqk1, hkey, hpval, hfid, hpc]
        exact absurd this hqk
      · rw [hqval]
        exact h6 p hp (by rw [← hpval]; exact hpst) q hq
          (by rw [← hqk1, hkey, hpval])

theorem inv_cancel_general (s : AppState) (cid : Nat) (f : Claim → Claim)
    (c : Claim) (hfid : ∀ a, (f a).donation_id = a.donation_id)
    (hfst : ∀ a, (f a).status = ClaimStatus.cancelled) (hInv : Inv s)
    (hfe : findEntry s.claims cid = some c) :
    Inv (AppState.mk
      (updEntry s.donations c.donation_id (setDStatus DonationStatus.available))
      (updEntry s.claims cid f)) := by
  obtain ⟨h1, h2, h3, h4, h5, h6⟩ := hInv
  have hcmem : (cid, c) ∈ s.claims := findEntry_mem hfe
  refine ⟨?_, ?_, ?_, ?_, ?_, ?_⟩
  · show ((updEntry s.donations c.donation_id
      (setDStatus DonationStatus.available)).map Prod.fst).Nodup
    rw [updEntry_map_fst]; exact h1
  · show ((updEntry s.claims cid f).map Prod.fst).Nodup
    rw [updEntry_map_fst]; exact h2
  · show ((updEntry s.claims cid f).map (fun p => p.2.donation_id)).Nodup
    rw [map_snd_updEntry s.claims cid f Claim.donation_id hfid]
    exact h3
  · intro p hp
    obtain ⟨q, hq, hk, hcases⟩ := mem_updEntry_cases hp
    have hdid : p.2.donation_id = q.2.donation_id := by
      rcases hcases with ⟨_, h⟩ | ⟨_, h⟩ <;> simp [h, hfid]
    show p.2.donation_id ∈ (updEntry s.donations c.donation_id
      (setDStatus DonationStatus.available)).map Prod.fst
    rw [updEntry_map_fst, hdid]
    exact h4 q hq
  · intro q' hq' hst
    obtain ⟨q, hq, hk, hcases⟩ := mem_updEntry_cases hq'
    rcases hcases with ⟨hqk, hqval⟩ | ⟨hqk, hqval⟩
    · rw [hqval] at hst
      rcases hst with h | h <;> exact absurd h (by simp [setDStatus])
    · obtain ⟨p, hp, hpd⟩ := h5 q hq (by rw [← hqval]; exact hst)
      obtain ⟨p', hp', hpk', hpd'⟩ :=
        updEntry_mem_proj (g := Claim.donation_id) (k := cid) (f := f)
          hfid hp
      exact ⟨p', hp', by rw [hpd', hpd, hk]⟩
  · intro p' hp' hpst q' hq' hkey
    obtain ⟨p, hp, hpk1, hpcases⟩ := mem_updEntry_cases hp'
    rcases hpcases with ⟨hpk, hpval⟩ | ⟨hpk, hpval⟩
    · rw [hpval] at hpst
      rw [hfst] at hpst
      exact absurd hpst (by simp)
    · obtain ⟨q, hq, hqk1, hqcases⟩ := mem_updEntry_cases hq'
      rcases hqcases with ⟨hqk, hqval⟩ | ⟨hqk, hqval⟩
      · have hpeq : p = (cid, c) :=
          List.inj_on_of_nodup_map h3 hp hcmem
            (by show p.2.donation_id = c.donation_id
                rw [← hpval, ← hkey, hqk1, hqk])
        exact absurd (by rw [hpeq] : p.1 = cid) hpk
      · rw [hqval]
        exact h6 p hp (by rw [← hpval]; exact hpst) q hq
          (by rw [← hqk1, hkey, hpval])

theorem inv_mark (s : AppState) (now : Int) (cid : Nat) (hInv : Inv s) :
    Inv (Claim.mark_as_completed now cid s) := by
  unfold Claim.mark_as_completed
  cases hfe : findEntry s.claims cid with
  | none => exact hInv
  | some c =>
    exact inv_mark_general s cid (completeFields now) c (fun a => rfl)
      (fun a => rfl) hInv hfe

theorem inv_cancel (s : AppState) (reason : String) (cid : Nat)
    (hInv : Inv s) : Inv (Claim.cancel_claim reason cid s) := by
  unfold Claim.cancel_claim
  cases hfe : findEntry s.claims cid with
  | none => exact hInv
  | some c =>
    exact inv_cancel_general s cid (cancelFields reason) c (fun a => rfl)
      (fun a => rfl) hInv hfe

theorem inv_plain_upd (s : AppState) (cid : Nat) (st : ClaimStatus)
    (notes : String) (c : Claim) (hInv : Inv s)
    (hfe : findEntry s.claims cid = some c)
    (hc : st = ClaimStatus.completed → c.status = ClaimStatus.completed) :
    Inv (AppState.mk s.donations
      (updEntry s.claims cid (updateClaimFields st notes))) := by
  obtain ⟨h1, h2, h3, h4, h5, h6⟩ := hInv
  refine ⟨h1, ?_, ?_, ?_, ?_, ?_⟩
  · show ((updEntry s.claims cid (updateClaimFields st notes)).map
      Prod.fst).Nodup
    rw [updEntry_map_fst]; exact h2
  · show ((updEntry s.claims cid (updateClaimFields st notes)).map
      (fun p => p.2.donation_id)).Nodup
    rw [map_snd_updEntry s.claims cid (updateClaimFields st notes)
      Claim.donation_id (fun a => rfl)]
    exact h3
  · intro p hp
    obtain ⟨q, hq, hk, hcases⟩ := mem_updEntry_cases hp
    have hdid : p.2.donation_id = q.2.donation_id := by
      rcases hcases with ⟨_, h⟩ | ⟨_, h⟩ <;> simp [h, updateClaimFields]
    show p.2.donation_id ∈ s.donations.map Prod.fst
    rw [hdid]
    exact h4 q hq
  · intro q' hq' hst
    obtain ⟨p, hp, hpd⟩ := h5 q' hq' hst
    obtain ⟨p', hp', hpk', hpd'⟩ :=
      updEntry_mem_proj (g := Claim.donation_id) (k := cid)
        (f := updateClaimFields st notes) (fun a => rfl) hp
    exact ⟨p', hp', by rw [hpd', hpd]⟩
  · intro p' hp' hpst q' hq' hkey
    obtain ⟨p, hp, hpk1, hpcases⟩ := mem_updEntry_cases hp'
    rcases hpcases with ⟨hpk, hpval⟩ | ⟨hpk, hpval⟩
    · have hpc : p.2 = c := uniqueEntry_of_nodup h2 hfe hp hpk
      have hstc : st = ClaimStatus.completed := by
        rw [hpval] at hpst
        exact hpst
      have hc2 : c.status = ClaimStatus.completed := hc hstc
      refine h6 p hp (by rw [hpc]; exact hc2) q' hq' ?_
      rw [hkey, hpval]
      rfl
    · exact h6 p hp (by rw [← hpval]; exact hpst) q' hq'
        (by rw [hkey, hpval])

theorem update_claim_completed_eq (now : Int) (ngo cid : Nat)
    (notes : String) (s : AppState) (pc : Nat × Claim)
    (hfind : s.claims.find? (fun p => p.1 == cid && p.2.ngo_id == ngo) =
      some pc)
    (hnotes : ¬notes.length > notesMax)
    (hold : pc.2.status ≠ ClaimStatus.completed) :
    update_claim now ngo cid ClaimStatus.completed notes s =
      (Claim.mark_as_completed now cid
        (AppState.mk s.donations
          (updEntry s.claims cid
            (updateClaimFields ClaimStatus.completed notes))),
       Outcome.successFlash msgClaimUpdated) := by
  simp [update_claim, hfind, hnotes, hold]

theorem update_claim_other_eq (now : Int) (ngo cid : Nat) (st : ClaimStatus)
    (notes : String) (s : AppState) (pc : Nat × Claim)
    (hfind : s.claims.find? (fun p => p.1 == cid && p.2.ngo_id == ngo) =
      some pc)
    (hnotes : ¬notes.length > notesMax)
    (hother : ¬(st = ClaimStatus.completed ∧
      pc.2.status ≠ ClaimStatus.completed))
    (hnc : ¬st = ClaimStatus.cancelled) :
    update_claim now ngo cid st notes s =
      (AppState.mk s.donations
        (updEntry s.claims cid (updateClaimFields st notes)),
       Outcome.successFlash msgClaimUpdated) := by
  simp [update_claim, hfind, hnotes, hother, hnc]

theorem inv_update_claim (s : AppState) (now : Int) (ngo cid : Nat)
    (st : ClaimStatus) (notes : String) (hInv : Inv s) :
    Inv (update_claim now ngo cid st notes s).1 := by
  cases hfind : s.claims.find? (fun p => p.1 == cid && p.2.ngo_id == ngo) with
  | none =>
    have heq : update_claim now ngo cid st notes s = (s, Outcome.notFound) := by
      simp [update_claim, hfind]
    rw [heq]
    exact hInv
  | some pc =>
    by_cases hnotes : notes.length > notesMax
    · have heq : update_claim now ngo cid st notes s =
          (s, Outcome.formInvalid) := by
        simp [update_claim, hfind, hnotes]
      rw [heq]
      exact hInv
    · have hfe : findEntry s.claims cid = some pc.2 :=
        (ngoLookup_spec hInv.2.1 hfind).2.2
      by_cases hA : st = ClaimStatus.completed ∧
          pc.2.status ≠ ClaimStatus.completed
      · obtain ⟨hA1, hA2⟩ := hA
        subst hA1
        rw [update_claim_completed_eq now ngo cid notes s pc hfind hnotes hA2]
        have hfe1 : findEntry (updEntry s.claims cid
            (updateClaimFields ClaimStatus.completed notes)) cid =
            some (updateClaimFields ClaimStatus.completed notes pc.2) := by
          rw [findEntry_updEntry_self, hfe]; rfl
        rw [show (Claim.mark_as_completed now cid
            (AppState.mk s.donations
              (updEntry s.claims cid
                (updateClaimFields ClaimStatus.completed notes))),
             Outcome.successFlash msgClaimUpdated).1 =
            Claim.mark_as_completed now cid
              (AppState.mk s.donations
                (updEntry s.claims cid
                  (updateClaimFields ClaimStatus.completed notes))) from rfl,
          mark_as_completed_eq _ cid now _ hfe1, updEntry_updEntry]
        exact inv_mark_general s cid
          (fun a => completeFields now
            (updateClaimFields ClaimStatus.completed notes a)) pc.2
          (fun a => rfl) (fun a => rfl) hInv hfe
      · by_cases hB : st = ClaimStatus.cancelled
        · subst hB
          rw [update_claim_cancelled_eq now ngo cid notes s pc hfind hnotes]
          have hfe1 : findEntry (updEntry s.claims cid
              (updateClaimFields ClaimStatus.cancelled notes)) cid =
              some (updateClaimFields ClaimStatus.cancelled notes pc.2) := by
            rw [findEntry_updEntry_self, hfe]; rfl
          rw [show (Claim.cancel_claim notes cid
              (AppState.mk s.donations
                (updEntry s.claims cid
                  (updateClaimFields ClaimStatus.cancelled notes))),
               Outcome.successFlash msgClaimUpdated).1 =
              Claim.cancel_claim notes cid
                (AppState.mk s.donations
                  (updEntry s.claims cid
                    (updateClaimFields ClaimStatus.cancelled notes))) from rfl,
            cancel_claim_eq _ cid notes _ hfe1, updEntry_updEntry]
          exact inv_cancel_general s cid
            (fun a => cancelFields notes
              (updateClaimFields ClaimStatus.cancelled notes a)) pc.2
            (fun a => rfl) (fun a => rfl) hInv hfe
        · rw [update_claim_other_eq now ngo cid st notes s pc hfind hnotes
            hA hB]
          exact inv_plain_upd s cid st notes pc.2 hInv hfe
            (fun hst => not_not.mp (fun hne => hA ⟨hst, hne⟩))

theorem inv_complete_pickup (s : AppState) (now : Int) (ngo cid : Nat)
    (hInv : Inv s) : Inv (complete_pickup now ngo cid s).1 := by
  cases hfind : s.claims.find? (fun p => p.1 == cid && p.2.ngo_id == ngo) with
  | none =>
    have heq : complete_pickup now ngo cid s = (s, Outcome.notFound) := by
      simp [complete_pickup, hfind]
    rw [heq]
    exact hInv
  | some pc =>
    by_cases hc : pc.2.status = ClaimStatus.completed
    · have heq : complete_pickup now ngo cid s =
          (s, Outcome.infoFlash msgAlreadyCompleted) := by
        simp [complete_pickup, hfind, hc]
      rw [heq]
      exact hInv
    · have heq : (complete_pickup now ngo cid s).1 =
          Claim.mark_as_completed now cid s := by
        simp [complete_pickup, hfind, hc]
      rw [heq]
      exact inv_mark s now cid hInv

theorem inv_cancel_route (s : AppState) (ngo cid : Nat)
    (reasonParam : Option String) (hInv : Inv s) :
    Inv (cancel_claim ngo cid reasonParam s).1 := by
  cases hfind : s.claims.find? (fun p => p.1 == cid && p.2.ngo_id == ngo) with
  | none =>
    have heq : cancel_claim ngo cid reasonParam s = (s, Outcome.notFound) := by
      simp [cancel_claim, hfind]
    rw [heq]
    exact hInv
  | some pc =>
    by_cases hc : pc.2.can_be_cancelled = true
    · have heq : (cancel_claim ngo cid reasonParam s).1 =
          Claim.cancel_claim (reasonParam.getD defaultCancelReason) cid s := by
        simp [cancel_claim, hfind, hc]
      rw [heq]
      exact inv_cancel s (reasonParam.getD defaultCancelReason) cid hInv
    · have heq : cancel_claim ngo cid reasonParam s =
          (s, Outcome.errFlash msgCannotCancel) := by
        simp [cancel_claim, hfind, hc]
      rw [heq]
      exact hInv

theorem update_status_if_expired_of_not_avail {d : FoodDonation}
    (today : Int) (h : d.status ≠ DonationStatus.available) :
    d.update_status_if_expired today = d := by
  rw [FoodDonation.update_status_if_expired, if_neg (by simp [h])]

theorem update_status_if_expired_status (d : FoodDonation) (today : Int) :
    (d.update_status_if_expired today).status = d.status ∨
      (d.update_status_if_expired today).status = DonationStatus.expired := by
  rw [FoodDonation.update_status_if_expired]
  split
  · exact Or.inr rfl
  · exact Or.inl rfl

theorem inv_claim_donation (s : AppState) (today : Int) (ngo did : Nat)
    (notes : String) (newCid : Nat) (hInv : Inv s) :
    Inv (claim_donation today ngo did notes newCid s).1 := by
  cases hfd : findEntry s.donations did with
  | none =>
    have heq : claim_donation today ngo did notes newCid s =
        (s, Outcome.notFound) := by
      simp [claim_donation, hfd]
    rw [heq]; exact hInv
  | some d =>
    by_cases hcan : d.can_be_claimed today = true
    case neg =>
      have heq : claim_donation today ngo did notes newCid s =
          (s, Outcome.errFlash msgNoLongerAvailable) := by
        simp [claim_donation, hfd, hcan]
      rw [heq]; exact hInv
    case pos =>
    by_cases hcl : (claimOf s did).isSome = true
    case pos =>
      have heq : claim_donation today ngo did notes newCid s =
          (s, Outcome.errFlash msgAlreadyClaimed) := by
        simp [claim_donation, hfd, hcan, hcl]
      rw [heq]; exact hInv
    case neg =>
    by_cases hn : notes.length > notesMax
    case pos =>
      have heq : claim_donation today ngo did notes newCid s =
          (s, Outcome.formInvalid) := by
        simp [claim_donation, hfd, hcan, hcl, hn]
      rw [heq]; exact hInv
    case neg =>
    by_cases hfc : (findEntry s.claims newCid).isSome = true
    case pos =>
      have heq : claim_donation today ngo did notes newCid s =
          (s, Outcome.errFlash msgCommitError) := by
        simp [claim_donation, hfd, hcan, hcl, hn, hfc]
      rw [heq]; exact hInv
    case neg =>
    have heq : (claim_donation today ngo did notes newCid s).1 =
        AppState.mk (updEntry s.donations did (setDStatus DonationStatus.claimed))
          (s.claims ++ [(newCid,
            { donation_id := did, ngo_id := ngo, status := ClaimStatus.claimed,
              notes := if notes ≠ "" then some (strip notes) else none,
              completed_at := none })]) := by
      simp [claim_donation, hfd, hcan, hcl, hn, hfc]
    rw [heq]
    obtain ⟨h1, h2, h3, h4, h5, h6⟩ := hInv
    have hnewKey : newCid ∉ s.claims.map Prod.fst := by
      rw [Option.isSome_iff_exists] at hfc
      push_neg at hfc
      intro hmem
      obtain ⟨q, hq, hq1⟩ := List.mem_map.mp hmem
      have : findEntry s.claims newCid = some q.2 := by
        rcases Option.eq_none_or_eq_some (findEntry s.claims newCid) with h | ⟨a, h⟩
        · rw [findEntry_eq_none_iff] at h
          exact absurd hq1 (h q hq)
        · rw [h]
          rw [uniqueEntry_of_nodup h2 h hq hq1]
      exact hfc q.2 this
    have hnoClaim : ∀ p ∈ s.claims, p.2.donation_id ≠ did := by
      have hnone : claimOf s did = none := by
        rcases Option.eq_none_or_eq_some (claimOf s did) with h | ⟨a, h⟩
        · exact h
        · rw [h] at hcl
          simp at hcl
      exact (claimOf_eq_none_iff s did).mp hnone
    have hdidKey : did ∈ s.donations.map Prod.fst :=
      List.mem_map.mpr ⟨(did, d), findEntry_mem hfd, rfl⟩
    refine ⟨?_, ?_, ?_, ?_, ?_, ?_⟩
    · show ((updEntry s.donations did
        (setDStatus DonationStatus.claimed)).map Prod.fst).Nodup
      rw [updEntry_map_fst]; exact h1
    · show ((s.claims ++ [_]).map Prod.fst).Nodup
      rw [List.map_append]
      simp [List.nodup_append, h2, hnewKey]
    · show ((s.claims ++ [_]).map
        (fun p : Nat × Claim => p.2.donation_id)).Nodup
      rw [List.map_append]
      have : did ∉ s.claims.map (fun p => p.2.donation_id) := by
        intro hmem
        obtain ⟨q, hq, hq1⟩ := List.mem_map.mp hmem
        exact hnoClaim q hq hq1
      simp [List.nodup_append, h3, this]
    · intro p hp
      show p.2.donation_id ∈ (updEntry s.donations did
        (setDStatus DonationStatus.claimed)).map Prod.fst
      rw [updEntry_map_fst]
      rcases List.mem_append.mp hp with hp | hp
      · exact h4 p hp
      · rw [List.mem_singleton.mp hp]
        exact hdidKey
    · intro q' hq' hst
      obtain ⟨q, hq, hk, hcases⟩ := mem_updEntry_cases hq'
      rcases hcases with ⟨hqk, hqval⟩ | ⟨hqk, hqval⟩
      · refine ⟨(newCid, _), List.mem_append_right _ (List.mem_singleton.mpr rfl), ?_⟩
        rw [hk, hqk]
      · obtain ⟨p, hp, hpd⟩ := h5 q hq (by rw [← hqval]; exact hst)
        exact ⟨p, List.mem_append_left _ hp, by rw [hpd, hk]⟩
    · intro p' hp' hpst q' hq' hkey
      rcases List.mem_append.mp hp' with hp1 | hp1
      · obtain ⟨q, hq, hqk1, hqcases⟩ := mem_updEntry_cases hq'
        rcases hqcases with ⟨hqk, hqval⟩ | ⟨hqk, hqval⟩
        · exact absurd (by rw [← hqk1, hkey] at hqk; exact hqk.symm)
            (fun hh => hnoClaim p' hp1 (by rw [hh]))
        · rw [hqval]
          exact h6 p' hp1 hpst q hq (by rw [← hqk1, hkey])
      · rw [List.mem_singleton.mp hp1] at hpst
        exact absurd hpst (by simp)

theorem inv_add (s : AppState) (today now : Int) (cats : List Nat)
    (donor : Nat) (f : DonationForm) (newDid : Nat) (hInv : Inv s) :
    Inv (add_donation today now cats donor f newDid s).1 := by
  by_cases hv : donationFormValid today cats f = true
  case neg =>
    have heq : add_donation today now cats donor f newDid s =
        (s, Outcome.formInvalid) := by
      simp [add_donation, hv]
    rw [heq]; exact hInv
  case pos =>
  by_cases hfc : (findEntry s.donations newDid).isSome = true
  case pos =>
    have heq : add_donation today now cats donor f newDid s =
        (s, Outcome.errFlash msgCommitError) := by
      simp [add_donation, hv, hfc]
    rw [heq]; exact hInv
  case neg =>
  have heq : (add_donation today now cats donor f newDid s).1 =
      AppState.mk (s.donations ++ [(newDid, donationOfForm now donor f)])
        s.claims := by
    simp [add_donation, hv, hfc]
  rw [heq]
  obtain ⟨h1, h2, h3, h4, h5, h6⟩ := hInv
  have hnewKey : newDid ∉ s.donations.map Prod.fst := by
    rw [Option.isSome_iff_exists] at hfc
    push_neg at hfc
    intro hmem
    obtain ⟨q, hq, hq1⟩ := List.mem_map.mp hmem
    have : findEntry s.donations newDid = some q.2 := by
      rcases Option.eq_none_or_eq_some (findEntry s.donations newDid) with h | ⟨a, h⟩
      · rw [findEntry_eq_none_iff] at h
        exact absurd hq1 (h q hq)
      · rw [h]
        rw [uniqueEntry_of_nodup h1 h hq hq1]
    exact hfc q.2 this
  refine ⟨?_, h2, h3, ?_, ?_, ?_⟩
  · show ((s.donations ++ [_]).map Prod.fst).Nodup
    rw [List.map_append]
    simp [List.nodup_append, h1, hnewKey]
  · intro p hp
    show p.2.donation_id ∈ (s.donations ++ [_]).map Prod.fst
    rw [List.map_append]
    exact List.mem_append_left _ (h4 p hp)
  · intro q' hq' hst
    rcases List.mem_append.mp hq' with hq1 | hq1
    · exact h5 q' hq1 hst
    · rw [List.mem_singleton.mp hq1] at hst
      exact absurd hst (by simp [donationOfForm])
  · intro p' hp' hpst q' hq' hkey
    rcases List.mem_append.mp hq' with hq1 | hq1
    · exact h6 p' hp' hpst q' hq1 hkey
    · have hmem : p'.2.donation_id ∈ s.donations.map Prod.fst := h4 p' hp'
      have hkey2 : newDid = p'.2.donation_id := by
        have hh := List.mem_singleton.mp hq1
        rw [hh] at hkey
        exact hkey
      rw [← hkey2] at hmem
      exact absurd hmem hnewKey

theorem inv_donation_upd (s : AppState) (did : Nat) (g : FoodDonation → FoodDonation)
    (hgstAvail : ∀ d, (g d).status = d.status ∨
      (d.status = DonationStatus.available ∧
        (g d).status = DonationStatus.expired))
    (hInv : Inv s) :
    Inv (AppState.mk (updEntry s.donations did g) s.claims) := by
  obtain ⟨h1, h2, h3, h4, h5, h6⟩ := hInv
  refine ⟨?_, h2, h3, ?_, ?_, ?_⟩
  · show ((updEntry s.donations did g).map Prod.fst).Nodup
    rw [updEntry_map_fst]; exact h1
  · intro p hp
    show p.2.donation_id ∈ (updEntry s.donations did g).map Prod.fst
    rw [updEntry_map_fst]
    exact h4 p hp
  · intro q' hq' hst
    obtain ⟨q, hq, hk, hcases⟩ := mem_updEntry_cases hq'
    rcases hcases with ⟨hqk, hqval⟩ | ⟨hqk, hqval⟩
    · rcases hgstAvail q.2 with hg | ⟨hg1, hg2⟩
      · obtain ⟨p, hp, hpd⟩ := h5 q hq (by rw [← hg, ← hqval]; exact hst)
        exact ⟨p, hp, by rw [hpd, hk]⟩
      · rw [hqval, hg2] at hst
        rcases hst with h | h <;> exact absurd h (by simp)
    · obtain ⟨p, hp, hpd⟩ := h5 q hq (by rw [← hqval]; exact hst)
      exact ⟨p, hp, by rw [hpd, hk]⟩
  · intro p' hp' hpst q' hq' hkey
    obtain ⟨q, hq, hqk1, hqcases⟩ := mem_updEntry_cases hq'
    rcases hqcases with ⟨hqk, hqval⟩ | ⟨hqk, hqval⟩
    · have hqc : q.2.status = DonationStatus.completed :=
        h6 p' hp' hpst q hq (by rw [← hqk1, hkey])
      rcases hgstAvail q.2 with hg | ⟨hg1, hg2⟩
      · rw [hqval, hg, hqc]
      · rw [hg1] at hqc
        exact absurd hqc (by simp)
    · rw [hqval]
      exact h6 p' hp' hpst q hq (by rw [← hqk1, hkey])

theorem inv_edit (s : AppState) (today : Int) (cats : List Nat)
    (donor did : Nat) (f : DonationForm) (hInv : Inv s) :
    Inv (edit_donation today cats donor did f s).1 := by
  cases hfind : s.donations.find? (fun p => p.1 == did && p.2.donor_id == donor) with
  | none =>
    have heq : edit_donation today cats donor did f s = (s, Outcome.notFound) := by
      simp [edit_donation, hfind]
    rw [heq]; exact hInv
  | some pd =>
    by_cases hce : pd.2.can_be_edited = true
    case neg =>
      have heq : edit_donation today cats donor did f s =
          (s, Outcome.errFlash "This donation cannot be edited") := by
        simp [edit_donation, hfind, hce]
      rw [heq]; exact hInv
    case pos =>
    by_cases hv : donationFormValid today cats f = true
    case neg =>
      have heq : edit_donation today cats donor did f s =
          (s, Outcome.formInvalid) := by
        simp [edit_donation, hfind, hce, hv]
      rw [heq]; exact hInv
    case pos =>
    have heq : (edit_donation today cats donor did f s).1 =
        AppState.mk (updEntry s.donations did (editFields f)) s.claims := by
      simp [edit_donation, hfind, hce, hv]
    rw [heq]
    exact inv_donation_upd s did (editFields f) (fun d => Or.inl rfl) hInv

theorem inv_view (s : AppState) (today : Int) (donor did : Nat)
    (hInv : Inv s) : Inv (donor_view_donation today donor did s).1 := by
  cases hfind : s.donations.find? (fun p => p.1 == did && p.2.donor_id == donor) with
  | none =>
    have heq : donor_view_donation today donor did s = (s, Outcome.notFound) := by
      simp [donor_view_donation, hfind]
    rw [heq]; exact hInv
  | some pd =>
    rw [donor_view_eq today donor did s pd hfind]
    refine inv_donation_upd s did _ (fun d => ?_) hInv
    rw [FoodDonation.update_status_if_expired]
    split
    case isTrue h =>
      right
      refine ⟨?_, rfl⟩
      rw [Bool.and_eq_true, beq_iff_eq] at h
      exact h.2
    case isFalse h => exact Or.inl rfl

theorem inv_sweep (s : AppState) (today : Int) (donor : Nat)
    (hInv : Inv s) : Inv (donor_dashboard today donor s) := by
  obtain ⟨h1, h2, h3, h4, h5, h6⟩ := hInv
  have hkeys : (s.donations.map (sweepEntry today donor)).map Prod.fst =
      s.donations.map Prod.fst := by
    rw [List.map_map]
    apply List.map_congr_left
    intro p _
    exact sweepEntry_fst today donor p
  refine ⟨?_, h2, h3, ?_, ?_, ?_⟩
  · show ((s.donations.map (sweepEntry today donor)).map Prod.fst).Nodup
    rw [hkeys]; exact h1
  · intro p hp
    show p.2.donation_id ∈ (s.donations.map (sweepEntry today donor)).map Prod.fst
    rw [hkeys]
    exact h4 p hp
  · intro q' hq' hst
    obtain ⟨q, hq, hqe⟩ := List.mem_map.mp hq'
    have hk : q'.1 = q.1 := by rw [← hqe]; exact sweepEntry_fst today donor q
    by_cases hc : q.2.donor_id = donor ∧ q.2.status = DonationStatus.available
    · have : q' = (q.1, q.2.update_status_if_expired today) := by
        rw [← hqe, sweepEntry, if_pos hc]
      rw [this] at hst
      rcases update_status_if_expired_status q.2 today with hg | hg <;>
        rw [hg] at hst
      · rw [hc.2] at hst
        rcases hst with h | h <;> exact absurd h (by simp)
      · rcases hst with h | h <;> exact absurd h (by simp)
    · have : q' = q := by rw [← hqe, sweepEntry, if_neg hc]
      rw [this] at hst ⊢
      exact h5 q hq hst
  · intro p' hp' hpst q' hq' hkey
    obtain ⟨q, hq, hqe⟩ := List.mem_map.mp hq'
    have hk : q'.1 = q.1 := by rw [← hqe]; exact sweepEntry_fst today donor q
    have hqc : q.2.status = DonationStatus.completed :=
      h6 p' hp' hpst q hq (by rw [← hk, hkey])
    have : q' = q := by
      rw [← hqe, sweepEntry, if_neg]
      intro hcc
      rw [hqc] at hcc
      exact absurd hcc.2 (by simp)
    rw [this]
    exact hqc

theorem inv_delete (s : AppState) (donor did : Nat) (hInv : Inv s) :
    Inv (delete_donation donor did s).1 := by
  cases hfind : s.donations.find? (fun p => p.1 == did && p.2.donor_id == donor) with
  | none =>
    have heq : delete_donation donor did s = (s, Outcome.notFound) := by
      simp [delete_donation, hfind]
    rw [heq]; exact hInv
  | some pd =>
    by_cases hce : pd.2.can_be_edited = true
    case neg =>
      have heq : delete_donation donor did s =
          (s, Outcome.errFlash "This donation cannot be deleted") := by
        simp [delete_donation, hfind, hce]
      rw [heq]; exact hInv
    case pos =>
    have heq : (delete_donation donor did s).1 =
        AppState.mk (s.donations.filter (fun p => p.1 != did))
          (s.claims.filter (fun p => p.2.donation_id != did)) := by
      simp [delete_donation, hfind, hce]
    rw [heq]
    obtain ⟨h1, h2, h3, h4, h5, h6⟩ := hInv
    refine ⟨?_, ?_, ?_, ?_, ?_, ?_⟩
    · exact List.Nodup.sublist
        ((List.filter_sublist s.donations).map Prod.fst) h1
    · exact List.Nodup.sublist
        ((List.filter_sublist s.claims).map Prod.fst) h2
    · exact List.Nodup.sublist
        ((List.filter_sublist s.claims).map
          (fun p : Nat × Claim => p.2.donation_id)) h3
    · intro p hp
      obtain ⟨hp1, hp2⟩ := List.mem_filter.mp hp
      have hpd : p.2.donation_id ≠ did := by simpa using hp2
      have hmem : p.2.donation_id ∈ s.donations.map Prod.fst := h4 p hp1
      obtain ⟨q, hq, hq1⟩ := List.mem_map.mp hmem
      refine List.mem_map.mpr ⟨q, List.mem_filter.mpr ⟨hq, ?_⟩, hq1⟩
      simp [hq1, hpd]
    · intro q' hq' hst
      obtain ⟨hq1, hq2⟩ := List.mem_filter.mp hq'
      have hqd : q'.1 ≠ did := by simpa using hq2
      obtain ⟨p, hp, hpd⟩ := h5 q' hq1 hst
      refine ⟨p, List.mem_filter.mpr ⟨hp, ?_⟩, hpd⟩
      simp [hpd, hqd]
    · intro p' hp' hpst q' hq' hkey
      exact h6 p' (List.mem_filter.mp hp').1 hpst q'
        (List.mem_filter.mp hq').1 hkey

/-- Every exposed operation preserves the invariant. -/
theorem inv_step {s s' : AppState} (hInv : Inv s) (hstep : Step s s') :
    Inv s' := by
  cases hstep with
  | claim today ngo did notes newCid s =>
    exact inv_claim_donation s today ngo did notes newCid hInv
  | update now ngo cid st notes s =>
    exact inv_update_claim s now ngo cid st notes hInv
  | cancel ngo cid reasonParam s =>
    exact inv_cancel_route s ngo cid reasonParam hInv
  | complete now ngo cid s =>
    exact inv_complete_pickup s now ngo cid hInv
  | add today now cats donor f newDid s =>
    exact inv_add s today now cats donor f newDid hInv
  | edit today cats donor did f s =>
    exact inv_edit s today cats donor did f hInv
  | del donor did s =>
    exact inv_delete s donor did hInv
  | sweep today donor s =>
    exact inv_sweep s today donor hInv
  | view today donor did s =>
    exact inv_view s today donor did hInv

/-- The empty database satisfies the invariant. -/
theorem inv_init : Inv (⟨[], []⟩ : AppState) := by
  refine ⟨List.nodup_nil, List.nodup_nil, List.nodup_nil, ?_, ?_, ?_⟩ <;>
    intro p hp <;> cases hp

/-- Every reachable state satisfies the invariant. -/
theorem reachable_inv {s : AppState} (h : Reachable s) : Inv s := by
  induction h with
  | init => exact inv_init
  | step _ hstep ih => exact inv_step ih hstep

/-- Form submission that creates the concrete donation `dAvail`. -/
def fBread : DonationForm :=
  { category_id := 1, title := "Bread", description := "fresh bread",
    quantity := 5, unit := "pieces", expiry_date := 10,
    pickup_address := "12 Bakery Street", pickup_city := "Springfield",
    pickup_instructions := "", is_perishable := true,
    dietary_info := "vegan" }

/-- The cancelled-claim state is reachable from the empty database: the
donor adds the donation, NGO 9 claims it, and NGO 9 cancels the claim
through the direct cancel route. -/
theorem reachable_sCancelled : Reachable sCancelled := by
  have h0 : Reachable (⟨[], []⟩ : AppState) := Reachable.init
  have h1 : Reachable ((add_donation 0 0 [1] 7 fBread 1 ⟨[], []⟩).1) :=
    Reachable.step h0 (Step.add 0 0 [1] 7 fBread 1 _)
  rw [show (add_donation 0 0 [1] 7 fBread 1 ⟨[], []⟩).1 = sAvail by decide] at h1
  have h2 : Reachable sClaimed :=
    Reachable.step h1 (Step.claim 0 9 1 "please hold" 1 sAvail)
  exact Reachable.step h2 (Step.cancel 9 1 (some "changed plans") sClaimed)

/-- C1 (amended): in every reachable state, every FoodDonation with
status claimed or completed has a non-null associated Claim, and a
donation whose associated Claim has status completed itself has status
completed; a donation with a non-null associated Claim, however, need
not have status claimed or completed — after a cancellation the
cancelled Claim row persists while the donation reverts to available
(and may later become expired). -/
theorem C1_claim_status_link (s : AppState) (h : Reachable s) :
    (∀ q ∈ s.donations,
      q.2.status = DonationStatus.claimed ∨
        q.2.status = DonationStatus.completed →
      (claimOf s q.1).isSome) ∧
    (∀ p ∈ s.claims, p.2.status = ClaimStatus.completed →
      ∀ q ∈ s.donations, q.1 = p.2.donation_id →
        q.2.status = DonationStatus.completed) := by
  obtain ⟨h1, h2, h3, h4, h5, h6⟩ := reachable_inv h
  refine ⟨?_, h6⟩
  intro q hq hst
  obtain ⟨p, hp, hpd⟩ := h5 q hq hst
  exact (claimOf_isSome_iff s q.1).mpr ⟨p, hp, hpd⟩

/-- C1 counterexample: the reachable state after a cancellation has a
donation with a non-null associated Claim whose status is available —
not claimed and not completed. -/
theorem C1_counterexample :
    Reachable sCancelled ∧ (claimOf sCancelled 1).isSome ∧
    (findEntry sCancelled.donations 1).map FoodDonation.status =
      some DonationStatus.available ∧
    ¬((findEntry sCancelled.donations 1).map FoodDonation.status =
        some DonationStatus.claimed ∨
      (findEntry sCancelled.donations 1).map FoodDonation.status =
        some DonationStatus.completed) :=
  ⟨reachable_sCancelled, by decide, by decide, by decide⟩

/-- Witness for C1 (amended) at the concrete reachable cancelled state. -/
theorem C1_claim_status_link_witness :
    Reachable sCancelled ∧
    (∀ q ∈ sCancelled.donations,
      q.2.status = DonationStatus.claimed ∨
        q.2.status = DonationStatus.completed →
      (claimOf sCancelled q.1).isSome) :=
  ⟨reachable_sCancelled,
   (C1_claim_status_link sCancelled reachable_sCancelled).1⟩

/-- C2 (amended): a claim-donation request against a donation that
already has an associated Claim row is always rejected with no state
change and no new Claim; the rejection message is "already been claimed
by another NGO" exactly when the donation itself still passes
can_be_claimed, and "no longer available for claiming" otherwise; and in
every reachable state at most one Claim references a given donation. -/
theorem C2_already_claimed (s : AppState) (today : Int) (ngo did : Nat)
    (notes : String) (newCid : Nat) (d : FoodDonation)
    (hd : findEntry s.donations did = some d)
    (hc : (claimOf s did).isSome) :
    claim_donation today ngo did notes newCid s =
      (s, if d.can_be_claimed today
        then Outcome.errFlash msgAlreadyClaimed
        else Outcome.errFlash msgNoLongerAvailable) ∧
    (Reachable s →
      (s.claims.map (fun p => p.2.donation_id)).Nodup) := by
  constructor
  · by_cases hcan : d.can_be_claimed today = true
    · simp [claim_donation, hd, hcan, hc]
    · simp [claim_donation, hd, hcan]
  · intro hr
    exact (reachable_inv hr).2.2.1

/-- C2 counterexample: against a donation whose claim is active (status
claimed), the request is rejected with the "no longer available"
message, not with "already been claimed by another NGO". -/
theorem C2_counterexample :
    (claimOf sClaimed 1).isSome ∧
    (claim_donation 0 5 1 "" 2 sClaimed).2 =
      Outcome.errFlash msgNoLongerAvailable ∧
    (claim_donation 0 5 1 "" 2 sClaimed).2 ≠
      Outcome.errFlash msgAlreadyClaimed := by
  decide

/-- Witness for C2 (amended) at the concrete cancelled state, where the
donation is claimable again and the rejection uses the "already been
claimed" message. -/
theorem C2_already_claimed_witness :
    (findEntry sCancelled.donations 1 = some dAvail ∧
      (claimOf sCancelled 1).isSome) ∧
    claim_donation 0 5 1 "" 2 sCancelled =
      (sCancelled, if dAvail.can_be_claimed 0
        then Outcome.errFlash msgAlreadyClaimed
        else Outcome.errFlash msgNoLongerAvailable) :=
  ⟨⟨by decide, by decide⟩,
   (C2_already_claimed sCancelled 0 5 1 "" 2 dAvail (by decide)
     (by decide)).1⟩

/-- Fold of repeated claim-donation attempts against one donation, with
arbitrary request parameters per attempt. -/
def claim_attempts (did : Nat) (l : List (Int × Nat × String × Nat))
    (t : AppState) : AppState :=
  l.foldl (fun st a => (claim_donation a.1 a.2.1 did a.2.2.1 a.2.2.2 st).1) t

theorem claim_donation_blocked (t : AppState) (today : Int) (ngo did : Nat)
    (notes : String) (newCid : Nat) (hc : (claimOf t did).isSome) :
    (claim_donation today ngo did notes newCid t).1 = t ∧
    ((claim_donation today ngo did notes newCid t).2 = Outcome.notFound ∨
     (claim_donation today ngo did notes newCid t).2 =
       Outcome.errFlash msgNoLongerAvailable ∨
     (claim_donation today ngo did notes newCid t).2 =
       Outcome.errFlash msgAlreadyClaimed) := by
  cases hfd : findEntry t.donations did with
  | none => constructor <;> simp [claim_donation, hfd]
  | some d =>
    by_cases hcan : d.can_be_claimed today = true
    · constructor <;> simp [claim_donation, hfd, hcan, hc]
    · constructor <;> simp [claim_donation, hfd, hcan]

theorem claim_attempts_frozen (did : Nat)
    (l : List (Int × Nat × String × Nat)) (t : AppState)
    (hc : (claimOf t did).isSome) : claim_attempts did l t = t := by
  induction l with
  | nil => rfl
  | cons a tl ih =>
    show claim_attempts did tl
      ((claim_donation a.1 a.2.1 did a.2.2.1 a.2.2.2 t).1) = t
    rw [(claim_donation_blocked t a.1 a.2.1 did a.2.2.1 a.2.2.2 hc).1]
    exact ih

/-- C10: cancelling a claim leaves the cancelled Claim row in place while
the donation reverts to available (and passes can_be_claimed while
unexpired); and in any state in which some Claim row references a
donation, every claim-donation request against it — by any NGO, with any
parameters — leaves the state unchanged and never succeeds, so the
donation can never again be claimed. -/
theorem C10_cancelled_blocks (s : AppState) (ngo cid : Nat)
    (reasonParam : Option String) (pc : Nat × Claim)
    (hkeysC : (s.claims.map Prod.fst).Nodup)
    (hfind : s.claims.find? (fun p => p.1 == cid && p.2.ngo_id == ngo) =
      some pc)
    (hcan : pc.2.status = ClaimStatus.claimed ∨
      pc.2.status = ClaimStatus.scheduled) :
    (∃ c', findEntry (cancel_claim ngo cid reasonParam s).1.claims cid =
        some c' ∧ c'.status = ClaimStatus.cancelled ∧
        c'.donation_id = pc.2.donation_id) ∧
    (claimOf (cancel_claim ngo cid reasonParam s).1 pc.2.donation_id).isSome ∧
    (∀ d, findEntry s.donations pc.2.donation_id = some d →
      findEntry (cancel_claim ngo cid reasonParam s).1.donations
          pc.2.donation_id = some { d with status := DonationStatus.available } ∧
      ∀ today : Int, ¬(d.expiry_date < today) →
        FoodDonation.can_be_claimed
          { d with status := DonationStatus.available } today = true) ∧
    (∀ t : AppState, (claimOf t pc.2.donation_id).isSome →
      ∀ today : Int, ∀ ngo2 : Nat, ∀ notes : String, ∀ newCid : Nat,
        (claim_donation today ngo2 pc.2.donation_id notes newCid t).1 = t ∧
        ∀ m : String,
          (claim_donation today ngo2 pc.2.donation_id notes newCid t).2 ≠
            Outcome.successFlash m) ∧
    (∀ t : AppState, (claimOf t pc.2.donation_id).isSome →
      ∀ l, claim_attempts pc.2.donation_id l t = t) := by
  obtain ⟨hcid, hngo, hfe⟩ := ngoLookup_spec hkeysC hfind
  have hcanB : pc.2.can_be_cancelled = true := by
    rcases hcan with h | h <;> simp [Claim.can_be_cancelled, h]
  have heq : (cancel_claim ngo cid reasonParam s).1 =
      Claim.cancel_claim (reasonParam.getD defaultCancelReason) cid s := by
    simp [cancel_claim, hfind, hcanB]
  rw [heq, cancel_claim_eq s cid (reasonParam.getD defaultCancelReason)
    pc.2 hfe]
  have hpcmem : (cid, pc.2) ∈ s.claims := by
    have hm : pc ∈ s.claims := List.mem_of_find?_eq_some hfind
    have : pc = (cid, pc.2) := by
      rcases pc with ⟨a, b⟩
      simp only at hcid ⊢
      rw [hcid]
    rw [← this]
    exact hm
  refine ⟨?_, ?_, ?_, ?_, ?_⟩
  · refine ⟨cancelFields (reasonParam.getD defaultCancelReason) pc.2, ?_,
      rfl, rfl⟩
    show findEntry (updEntry s.claims cid _) cid = _
    rw [findEntry_updEntry_self, hfe]
    rfl
  · rw [claimOf_isSome_iff]
    refine ⟨(cid, cancelFields (reasonParam.getD defaultCancelReason) pc.2),
      ?_, rfl⟩
    show _ ∈ updEntry s.claims cid (cancelFields _)
    have := updEntry_mem (k := cid)
      (f := cancelFields (reasonParam.getD defaultCancelReason)) hpcmem
    rwa [if_pos rfl] at this
  · intro d hd
    constructor
    · show findEntry (updEntry s.donations pc.2.donation_id _)
        pc.2.donation_id = _
      rw [findEntry_updEntry_self, hd]
      rfl
    · intro today hexp
      simp [FoodDonation.can_be_claimed, FoodDonation.is_expired, hexp]
  · intro t hct today ngo2 notes newCid
    obtain ⟨hfrozen, hout⟩ :=
      claim_donation_blocked t today ngo2 pc.2.donation_id notes newCid hct
    refine ⟨hfrozen, ?_⟩
    intro m
    rcases hout with h | h | h <;> rw [h] <;> simp
  · intro t hct l
    exact claim_attempts_frozen pc.2.donation_id l t hct

/-- Witness for C10: in the concrete cancelled state the cancelled claim
row persists and a further claim attempt leaves the state unchanged. -/
theorem C10_cancelled_blocks_witness :
    ((sClaimed.claims.map Prod.fst).Nodup ∧
      sClaimed.claims.find? (fun p => p.1 == 1 && p.2.ngo_id == 9) =
        some (1, cClaimedRec) ∧
      (cClaimedRec.status = ClaimStatus.claimed ∨
        cClaimedRec.status = ClaimStatus.scheduled) ∧
      (claimOf sCancelled 1).isSome) ∧
    claim_attempts 1 [(0, 5, "", 2)] sCancelled = sCancelled :=
  ⟨⟨by decide, by decide, by decide, by decide⟩,
   (C10_cancelled_blocks sClaimed 9 1 (some "changed plans")
       (1, cClaimedRec) (by decide) (by decide) (by decide)).2.2.2.2
     sCancelled (by decide) [(0, 5, "", 2)]⟩

/-- Concrete donation whose expiry date (2) is already past on day 5. -/
def dStale : FoodDonation := { dAvail with expiry_date := 2 }

/-- State with the single stale donation under key 2. -/
def sStale : AppState := { donations := [(2, dStale)], claims := [] }

/-- Witness for C3 at the concrete stale state: loading the donor
dashboard on day 5 flips the donation to expired. -/
theorem C3_lazy_expiry_witness :
    (findEntry sStale.donations 2 = some dStale ∧ dStale.donor_id = 7 ∧
      dStale.status = DonationStatus.available ∧ dStale.expiry_date < 5) ∧
    findEntry (donor_dashboard 5 7 sStale).donations 2 =
      some { dStale with status := DonationStatus.expired } :=
  ⟨⟨by decide, by decide, by decide, by decide⟩,
   ((C3_lazy_expiry sStale 5 7 2 dStale (by decide) (by decide)).1
     (by decide) (by decide)).1⟩

/-- Python `str.lower()`. -/
def lowerStr (x : String) : String := String.mk (x.data.map Char.toLower)

/-- A row of the `users` table (`User` model).  The salted password hash
is kept abstract: the registration and login operations take the
vendored hashing / checking functions as parameters. -/
structure UserRec where
  username : String
  email : String
  password_hash : String
  user_type : String
  full_name : String
  phone : Option String
  address : Option String
  city : Option String
  organization_name : Option String
  registration_number : Option String
  is_active : Bool
deriving DecidableEq, Repr

/-- Raw submission of the `RegistrationForm` (all fields as submitted). -/
structure RegForm where
  username : String
  email : String
  password : String
  confirm_password : String
  user_type : String
  full_name : String
  phone : String
  address : String
  city : String
  organization_name : String
  registration_number : String
deriving DecidableEq, Repr

/-- Error message of the custom NGO organization-name validator. -/
def msgOrgRequired : String := "Organization name is required for NGOs."

/-- Error message of the custom NGO registration-number validator. -/
def msgRegRequired : String := "Registration number is required for NGOs."

/-- Validation of the `RegistrationForm`: per field, the declared
validators in order (first failure per field reported), including the
uniqueness lookups against the users table and the custom NGO-field
validators (which fail only when the submitted value is the empty
string — `not field.data` in the source).  `emailOk` stands for the
vendored e-mail format validator, which is a third-party dependency. -/
def regFormErrors (emailOk : String → Bool) (users : List (Nat × UserRec))
    (f : RegForm) : List (String × String) :=
  (if ¬dataRequiredStr f.username then
     [("username", "Username is required.")]
   else if ¬(3 ≤ f.username.length ∧ f.username.length ≤ 20) then
     [("username", "Username must be between 3 and 20 characters.")]
   else if (users.find? (fun p => p.2.username == lowerStr f.username)).isSome then
     [("username", "Username is already taken.")]
   else []) ++
  (if ¬dataRequiredStr f.email then
     [("email", "Email is required.")]
   else if ¬emailOk f.email then
     [("email", "Please enter a valid email address.")]
   else if (users.find? (fun p => p.2.email == lowerStr f.email)).isSome then
     [("email", "Email is already registered.")]
   else []) ++
  (if ¬dataRequiredStr f.password then
     [("password", "Password is required.")]
   else if f.password.length < 6 then
     [("password", "Password must be at least 6 characters long.")]
   else []) ++
  (if ¬dataRequiredStr f.confirm_password then
     [("confirm_password", "Please confirm your password.")]
   else if f.confirm_password ≠ f.password then
     [("confirm_password", "Passwords must match.")]
   else []) ++
  (if ¬dataRequiredStr f.user_type ∨ ¬(f.user_type = "donor" ∨ f.user_type = "ngo") then
     [("user_type", "Please select your user type.")]
   else []) ++
  (if ¬dataRequiredStr f.full_name then
     [("full_name", "Full name is required.")]
   else if ¬(2 ≤ f.full_name.length ∧ f.full_name.length ≤ 100) then
     [("full_name", "Name must be between 2 and 100 characters.")]
   else []) ++
  (if f.phone.length > 20 then
     [("phone", "Phone number cannot exceed 20 characters.")]
   else []) ++
  (if f.address.length > 500 then
     [("address", "Address cannot exceed 500 characters.")]
   else []) ++
  (if f.city.length > 50 then
     [("city", "City name cannot exceed 50 characters.")]
   else []) ++
  (if f.organization_name.length > 100 then
     [("organization_name", "Organization name cannot exceed 100 characters.")]
   else if f.user_type = "ngo" ∧ f.organization_name = "" then
     [("organization_name", msgOrgRequired)]
   else []) ++
  (if f.registration_number.length > 50 then
     [("registration_number", "Registration number cannot exceed 50 characters.")]
   else if f.user_type = "ngo" ∧ f.registration_number = "" then
     [("registration_number", msgRegRequired)]
   else [])

/-- The `User` row created by `auth.register` from a validated form
(normalized fields; the NGO-specific fields are attached only when
user_type is ngo). -/
def userOfForm (hashPw : String → String) (f : RegForm) : UserRec :=
  { username := strip (lowerStr f.username),
    email := strip (lowerStr f.email),
    password_hash := hashPw f.password,
    user_type := f.user_type,
    full_name := strip f.full_name,
    phone := if f.phone ≠ "" then some (strip f.phone) else none,
    address := if f.address ≠ "" then some (strip f.address) else none,
    city := if f.city ≠ "" then some (strip f.city) else none,
    organization_name := if f.user_type = "ngo" then
        some (strip f.organization_name)
      else none,
    registration_number := if f.user_type = "ngo" then
        some (strip f.registration_number)
      else none,
    is_active := true }

/-- Route `auth.register`: on a valid form, create the new User row and
commit (a primary-key collision makes the commit fail and roll back);
on a validation failure, redisplay the form with no persistence. -/
def register (emailOk : String → Bool) (hashPw : String → String)
    (f : RegForm) (newUid : Nat) (users : List (Nat × UserRec)) :
    List (Nat × UserRec) × Outcome :=
  if regFormErrors emailOk users f ≠ [] then
    (users, Outcome.formInvalid)
  else if (findEntry users newUid).isSome then
    (users, Outcome.errFlash msgCommitError)
  else
    (users ++ [(newUid, userOfForm hashPw f)],
     Outcome.successFlash "Registration successful")

/-- Observable result of the login route. -/
inductive LoginResult
  | formInvalid
  | errInvalidCreds
  | errDeactivated
  | redirectNext (u : String)
  | redirectDashboard
deriving DecidableEq, Repr

/-- Route `auth.login`: validate the form (email required and
well-formed, password required), look the user up by lowercased email,
check the password with the vendored checker, block deactivated
accounts, and redirect — to the `next` query parameter whenever it is
present and non-empty, else to the dashboard. -/
def login (checkPw : String → String → Bool) (emailOk : String → Bool)
    (users : List (Nat × UserRec)) (email password : String)
    (nextParam : Option String) : LoginResult :=
  if ¬(dataRequiredStr email ∧ emailOk email ∧ dataRequiredStr password) then
    LoginResult.formInvalid
  else
    match users.find? (fun p => p.2.email == lowerStr email) with
    | none => LoginResult.errInvalidCreds
    | some pu =>
      if ¬(checkPw pu.2.password_hash password = true) then
        LoginResult.errInvalidCreds
      else if ¬(pu.2.is_active = true) then
        LoginResult.errDeactivated
      else
        match nextParam with
        | some n => if n ≠ "" then LoginResult.redirectNext n
            else LoginResult.redirectDashboard
        | none => LoginResult.redirectDashboard

/-- String prefix test over the character lists. -/
def strStarts (pre u : String) : Bool := pre.data.isPrefixOf u.data

/-- Modelled from the spec: the spec's login contract follows the `next`
query parameter only "if present and safe", but no safety predicate
exists anywhere in the source.  The standard meaning — used here to
state the claim — is that only a same-site (relative) target is safe:
not an absolute `http://` or `https://` URL and not a scheme-relative
`//` URL. -/
def isSafeNext (u : String) : Bool :=
  !(strStarts "http://" u || strStarts "https://" u || strStarts "//" u)

/-- Concrete e-mail format check used to instantiate the vendored
validator parameter in example states: the address must contain an @. -/
def emailBasicOk : String → Bool := fun e => e.data.contains '@'

/-- Identity stand-in for the vendored password hasher in example
states. -/
def hashId : String → String := fun p => p

/-- Equality stand-in for the vendored password checker in example
states (paired with `hashId`). -/
def eqCheckPw : String → String → Bool := fun h p => h == p

/-- C7 (amended): for a registration submission with user_type = ngo, an
empty (as opposed to whitespace-only) organization_name or
registration_number makes validation fail with the dedicated
field-specific error, and no User row is created. -/
theorem C7_ngo_fields_required (emailOk : String → Bool)
    (hashPw : String → String) (users : List (Nat × UserRec)) (f : RegForm)
    (newUid : Nat) (hngo : f.user_type = "ngo")
    (hblank : f.organization_name = "" ∨ f.registration_number = "") :
    regFormErrors emailOk users f ≠ [] ∧
    (f.organization_name = "" →
      ("organization_name", msgOrgRequired) ∈ regFormErrors emailOk users f) ∧
    (f.registration_number = "" →
      ("registration_number", msgRegRequired) ∈ regFormErrors emailOk users f) ∧
    register emailOk hashPw f newUid users = (users, Outcome.formInvalid) := by
  have horgMem : f.organization_name = "" →
      ("organization_name", msgOrgRequired) ∈ regFormErrors emailOk users f := by
    intro h
    simp [regFormErrors, hngo, h]
  have hregMem : f.registration_number = "" →
      ("registration_number", msgRegRequired) ∈ regFormErrors emailOk users f := by
    intro h
    simp [regFormErrors, hngo, h]
  have hne : regFormErrors emailOk users f ≠ [] := by
    rcases hblank with h | h
    · exact List.ne_nil_of_mem (horgMem h)
    · exact List.ne_nil_of_mem (hregMem h)
  refine ⟨hne, horgMem, hregMem, ?_⟩
  unfold register
  rw [if_pos hne]

/-- Registration submission of an NGO whose organization name is
whitespace-only — blank in the claim's sense, but truthy in Python. -/
def fNgoWs : RegForm :=
  { username := "helpinghands", email := "h@x.com", password := "secret1",
    confirm_password := "secret1", user_type := "ngo",
    full_name := "Helping Hands", phone := "", address := "", city := "",
    organization_name := " ", registration_number := "REG123" }

/-- C7 counterexample: with a whitespace-only organization_name the
custom validator (`not field.data`) passes, validation succeeds, and a
User row is created — its stored organization name stripped down to the
empty string. -/
theorem C7_counterexample :
    fNgoWs.user_type = "ngo" ∧
    strip fNgoWs.organization_name = "" ∧
    fNgoWs.organization_name ≠ "" ∧
    regFormErrors emailBasicOk [] fNgoWs = [] ∧
    (register emailBasicOk hashId fNgoWs 1 []).1 ≠ [] ∧
    (findEntry (register emailBasicOk hashId fNgoWs 1 []).1 1).map
      (fun u => u.organization_name) = some (some "") := by
  decide

/-- Like `fNgoWs` but with an empty organization name. -/
def fNgoEmpty : RegForm :=
  { fNgoWs with organization_name := "" }

/-- Witness for C7 (amended) at a concrete submission with an empty
organization name. -/
theorem C7_ngo_fields_required_witness :
    (fNgoEmpty.user_type = "ngo" ∧
      (fNgoEmpty.organization_name = "" ∨
        fNgoEmpty.registration_number = "")) ∧
    register emailBasicOk hashId fNgoEmpty 1 [] = ([], Outcome.formInvalid) :=
  ⟨⟨by decide, Or.inl (by decide)⟩,
   (C7_ngo_fields_required emailBasicOk hashId [] fNgoEmpty 1 (by decide)
     (Or.inl (by decide))).2.2.2⟩

/-- C8 (amended): on a valid form, valid credentials and an active
account, the login route redirects to the `next` query parameter
whenever it is present and non-empty — with no safety check at all, so
in particular also when the target is unsafe — and to the dashboard only
when the parameter is absent or empty. -/
theorem C8_login_redirect (checkPw : String → String → Bool)
    (emailOk : String → Bool) (users : List (Nat × UserRec))
    (email password : String) (nextParam : Option String)
    (pu : Nat × UserRec)
    (hform : dataRequiredStr email ∧ emailOk email ∧
      dataRequiredStr password)
    (hfind : users.find? (fun p => p.2.email == lowerStr email) = some pu)
    (hpw : checkPw pu.2.password_hash password = true)
    (hactive : pu.2.is_active = true) :
    login checkPw emailOk users email password nextParam =
      (match nextParam with
       | some n => if n ≠ "" then LoginResult.redirectNext n
           else LoginResult.redirectDashboard
       | none => LoginResult.redirectDashboard) ∧
    (∀ n, nextParam = some n → n ≠ "" → isSafeNext n = false →
      login checkPw emailOk users email password nextParam =
        LoginResult.redirectNext n ∧
      login checkPw emailOk users email password nextParam ≠
        LoginResult.redirectDashboard) := by
  have hmain : login checkPw emailOk users email password nextParam =
      (match nextParam with
       | some n => if n ≠ "" then LoginResult.redirectNext n
           else LoginResult.redirectDashboard
       | none => LoginResult.redirectDashboard) := by
    unfold login
    rw [if_neg (by simp [hform.1, hform.2.1, hform.2.2])]
    simp only [hfind]
    rw [if_neg (by simp [hpw]), if_neg (by simp [hactive])]
  refine ⟨hmain, ?_⟩
  intro n hn hne _
  subst hn
  rw [hmain]
  simp [hne]

/-- Concrete active donor account (with the identity hash stand-in). -/
def uDonor : UserRec :=
  { username := "greenrest", email := "g@x.com", password_hash := "secret1",
    user_type := "donor", full_name := "Green Restaurant", phone := none,
    address := none, city := none, organization_name := none,
    registration_number := none, is_active := true }

/-- Users table holding the single concrete donor account. -/
def usersOne : List (Nat × UserRec) := [(1, uDonor)]

/-- C8 counterexample: with valid credentials and an unsafe absolute
`next` URL, login redirects to that URL instead of the dashboard. -/
theorem C8_counterexample :
    isSafeNext "http://evil.example/x" = false ∧
    login eqCheckPw emailBasicOk usersOne "g@x.com" "secret1"
        (some "http://evil.example/x") =
      LoginResult.redirectNext "http://evil.example/x" ∧
    login eqCheckPw emailBasicOk usersOne "g@x.com" "secret1"
        (some "http://evil.example/x") ≠
      LoginResult.redirectDashboard := by
  decide

/-- Witness for C8 (amended): with no `next` parameter the concrete
login lands on the dashboard. -/
theorem C8_login_redirect_witness :
    ((dataRequiredStr "g@x.com" ∧ emailBasicOk "g@x.com" ∧
        dataRequiredStr "secret1") ∧
      usersOne.find? (fun p => p.2.email == lowerStr "g@x.com") =
        some (1, uDonor) ∧
      eqCheckPw uDonor.password_hash "secret1" = true ∧
      uDonor.is_active = true) ∧
    login eqCheckPw emailBasicOk usersOne "g@x.com" "secret1" none =
      LoginResult.redirectDashboard :=
  ⟨⟨by decide, by decide, by decide, by decide⟩,
   (C8_login_redirect eqCheckPw emailBasicOk usersOne "g@x.com" "secret1"
     none (1, uDonor) (by decide) (by decide) (by decide) (by decide)).1⟩

/-- Contiguous-substring test on character lists. -/
def containsSub (needle : List Char) : List Char → Bool
  | [] => needle.isEmpty
  | c :: t => needle.isPrefixOf (c :: t) || containsSub needle t

/-- SQL `column ILIKE '%pat%'`: case-insensitive substring match. -/
def ilikeContains (hay pat : String) : Bool :=
  containsSub (lowerStr pat).data (lowerStr hay).data

/-- ORDER BY expiry_date ASC, created_at DESC, as a boolean comparison. -/
def donationOrder (a b : Nat × FoodDonation) : Bool :=
  decide (a.2.expiry_date < b.2.expiry_date) ||
    (a.2.expiry_date == b.2.expiry_date &&
      decide (b.2.created_at ≤ a.2.created_at))

/-- `FoodDonation.get_available_donations`: donations with status
available, filtered by the optional city (case-insensitive substring of
pickup_city), category (exact id) and search (case-insensitive substring
of title or description) filters, excluding expired donations
(expiry_date ≥ today) and ordered by soonest expiry first, most recent
creation first. -/
def get_available_donations (today : Int) (city : Option String)
    (category_id : Option Nat) (search : Option String) (s : AppState) :
    List (Nat × FoodDonation) :=
  let q := s.donations.filter
    (fun p => p.2.status == DonationStatus.available)
  let q := match city with
    | some c => q.filter
        (fun p : Nat × FoodDonation => ilikeContains p.2.pickup_city c)
    | none => q
  let q := match category_id with
    | some cid => q.filter
        (fun p : Nat × FoodDonation => p.2.category_id == cid)
    | none => q
  let q := match search with
    | some t => q.filter
        (fun p : Nat × FoodDonation => ilikeContains p.2.title t ||
          (match p.2.description with
           | some dsc => ilikeContains dsc t
           | none => false))
    | none => q
  let q := q.filter
    (fun p : Nat × FoodDonation => decide (today ≤ p.2.expiry_date))
  q.mergeSort donationOrder

/-- Offset/limit pagination with `error_out=False` semantics: a page
number below 1 is clamped to 1. -/
def paginate (page per_page : Nat) (l : List α) : List α :=
  (l.drop ((max page 1 - 1) * per_page)).take per_page

/-- The full (unpaginated) result set of `main.browse_donations`: empty
query parameters mean no filter, category 0 means all categories, and a
non-empty dietary filter is an exact match on dietary_info. -/
def browse_query (today : Int) (search : String) (category_id : Nat)
    (city dietary_info : String) (s : AppState) :
    List (Nat × FoodDonation) :=
  let q := get_available_donations today
    (if city ≠ "" then some city else none)
    (if category_id > 0 then some category_id else none)
    (if search ≠ "" then some search else none) s
  if dietary_info ≠ "" then
    q.filter (fun p => p.2.dietary_info == some dietary_info)
  else q

/-- Route `main.browse_donations`: the requested page (12 per page) of
the filtered listing. -/
def browse_donations (today : Int) (search : String) (category_id : Nat)
    (city dietary_info : String) (page : Nat) (s : AppState) :
    List (Nat × FoodDonation) :=
  paginate page 12 (browse_query today search category_id city dietary_info s)

theorem descMatch_iff (o : Option String) (t : String) :
    ((match o with
      | some dsc => ilikeContains dsc t
      | none => false) = true) ↔
      ∃ dsc, o = some dsc ∧ ilikeContains dsc t = true := by
  cases o <;> simp

theorem donationOrder_trans (a b c : Nat × FoodDonation)
    (hab : donationOrder a b) (hbc : donationOrder b c) :
    donationOrder a c := by
  simp only [donationOrder, Bool.or_eq_true, Bool.and_eq_true,
    decide_eq_true_eq, beq_iff_eq] at *
  omega

theorem donationOrder_total (a b : Nat × FoodDonation) :
    donationOrder a b || donationOrder b a := by
  simp only [donationOrder, Bool.or_eq_true, Bool.and_eq_true,
    decide_eq_true_eq, beq_iff_eq]
  omega

/-- C9: the public browse listing contains exactly the donations with
status available and expiry_date ≥ today matching every supplied filter
— city by case-insensitive substring of pickup_city, search by
case-insensitive substring of title or description, category by id,
dietary by exact match — ordered by soonest expiry first and, within
equal expiry dates, most recent creation first, and served in pages of
12. -/
theorem C9_browse_listing (s : AppState) (today : Int) (search : String)
    (category_id : Nat) (city dietary_info : String) (page : Nat) :
    (∀ x, x ∈ browse_query today search category_id city dietary_info s ↔
      (x ∈ s.donations ∧ x.2.status = DonationStatus.available ∧
        today ≤ x.2.expiry_date ∧
        (city ≠ "" → ilikeContains x.2.pickup_city city = true) ∧
        (category_id > 0 → x.2.category_id = category_id) ∧
        (search ≠ "" → (ilikeContains x.2.title search = true ∨
          ∃ dsc, x.2.description = some dsc ∧
            ilikeContains dsc search = true)) ∧
        (dietary_info ≠ "" → x.2.dietary_info = some dietary_info))) ∧
    (browse_query today search category_id city dietary_info s).Pairwise
      (fun a b => a.2.expiry_date < b.2.expiry_date ∨
        (a.2.expiry_date = b.2.expiry_date ∧
          b.2.created_at ≤ a.2.created_at)) ∧
    browse_donations today search category_id city dietary_info page s =
      ((browse_query today search category_id city dietary_info s).drop
        ((max page 1 - 1) * 12)).take 12 := by
  refine ⟨?_, ?_, rfl⟩
  · intro x
    unfold browse_query get_available_donations
    by_cases hcity : city = "" <;> by_cases hcat : category_id > 0 <;>
      by_cases hsearch : search = "" <;> by_cases hdiet : dietary_info = "" <;>
      simp [hcity, hcat, hsearch, hdiet, List.mem_filter,
        List.mem_mergeSort, descMatch_iff, Nat.not_lt.mp] <;>
      tauto
  · have hsorted : ∀ (co : Option String) (ko : Option Nat)
        (so : Option String),
        (get_available_donations today co ko so s).Pairwise
          (fun a b => donationOrder a b = true) := by
      intro co ko so
      unfold get_available_donations
      exact List.sorted_mergeSort donationOrder_trans donationOrder_total _
    have hsorted2 : (browse_query today search category_id city
        dietary_info s).Pairwise (fun a b => donationOrder a b = true) := by
      by_cases hdiet : dietary_info = ""
      · simp only [browse_query]
        rw [if_neg (by simp [hdiet])]
        exact hsorted _ _ _
      · simp only [browse_query]
        rw [if_pos hdiet]
        exact List.Pairwise.sublist (List.filter_sublist _) (hsorted _ _ _)
    refine hsorted2.imp ?_
    intro a b hab
    simp only [donationOrder, Bool.or_eq_true, Bool.and_eq_true,
      decide_eq_true_eq, beq_iff_eq] at hab
    exact hab

end FoodWaste
